import Mathlib

/-!
# pg_get_queryid: a shallow embedding of `pg_get_queryid.c`

The module keeps, in shared memory, one 64-bit query identifier per process
slot (`QueryIdArray`), written by two hooks (`pgqi_post_parse_analyze`,
`pgqi_ExecutorStart`) and read by the SQL function `pg_get_queryid(pid)`.

Modelling conventions.

* The embedding follows the code compiled for `PG_VERSION_NUM >= 120000`
  (64-bit hash, sentinel 2 for a zero hash, statement location and length).
* A C string is the list of its bytes before the terminating NUL; a pointer
  into it is a byte offset.  Offset `length` holds the NUL, any larger offset is
  outside the object and reading it is the fault `outOfBounds`.
* `int` values are `Int`.  The places where a value may not fit in 32 bits are
  the conversion of a `size_t` to `int`, modelled by `toInt32`, and the
  additions of `get_max_procs_count`, modelled by `wrapInt32`.
* `uint64` identifiers are `Nat`; the code only copies and compares them.
* `Assert` is active or a no-op depending on the build (`USE_ASSERT_CHECKING`).
* Functions of the host that the module calls (`scanner_isspace`,
  `hash_any_extended`, `standard_ExecutorStart`) and the build flag are the
  fields of `Host`; hooks of other extensions chained before this module's
  hooks are fields of `Backend`.
-/

namespace PgGetQueryid

/-! ## Data model -/

/-- Ways in which a run of the C code can go wrong instead of returning. -/
inductive Fault where
  | assertionFailed
  | outOfBounds
  deriving DecidableEq, Repr

/-- The host's `CmdType` (nodes.h). -/
inductive CmdType where
  | CMD_UNKNOWN
  | CMD_SELECT
  | CMD_UPDATE
  | CMD_INSERT
  | CMD_DELETE
  | CMD_UTILITY
  | CMD_NOTHING
  deriving DecidableEq, Repr

/-- The fields of the host's `Query` node that the module reads. -/
structure Query where
  queryId : Nat
  commandType : CmdType
  stmt_location : Int
  stmt_len : Int
  deriving DecidableEq, Repr

/-- The field of the host's `ParseState` that the module reads: the source text
(bytes before the terminating NUL). -/
structure ParseState where
  p_sourcetext : List Nat
  deriving DecidableEq, Repr

/-- The field of the host's `PlannedStmt` that the module reads. -/
structure PlannedStmt where
  queryId : Nat
  deriving DecidableEq, Repr

/-- The field of the host's `QueryDesc` that the module reads. -/
structure QueryDesc where
  plannedstmt : PlannedStmt
  deriving DecidableEq, Repr

/-- The field of the host's `PGPROC` that the module reads; `pid = 0` marks a
slot that is not in use. -/
structure PGPROC where
  pid : Int
  deriving DecidableEq, Repr

/-- The host's `PROC_HDR` (`ProcGlobal`): the process table and its slot count. -/
structure PROC_HDR where
  allProcs : Nat → PGPROC
  allProcCount : Nat

/-- What the module takes from the host and from the build. -/
structure Host where
  USE_ASSERT_CHECKING : Bool
  scanner_isspace : Nat → Bool
  hash_any_extended : List Nat → Nat → Nat
  standard_ExecutorStart : QueryDesc → Int → QueryDesc

/-- The state a hook or the lookup runs in: the process's own slot (`MyProc`,
as its index in `allProcs`, `none` for a null pointer), the process table, the
shared registry, the configuration flag and the saved hooks of other
extensions.  A chained hook is foreign code; it is modelled by what it does to
the node it is handed. -/
structure Backend where
  MyProc : Option Nat
  ProcGlobal : PROC_HDR
  QueryIdArray : Nat → Nat
  pgqi_track_utility : Bool
  prev_post_parse_analyze_hook : Option (ParseState → Query → Query)
  prev_ExecutorStart : Option (QueryDesc → Int → QueryDesc)

/-- The locals of `get_ql_for_utility`: `querytext` is the offset of the local
pointer into the source text. -/
structure TrimLocals where
  querytext : Nat
  query_location : Int
  query_len : Int
  deriving DecidableEq, Repr

/-! ## Primitives of the C memory model -/

/-- Conversion of a `size_t` to `int`. -/
def toInt32 (n : Nat) : Int :=
  ((n : Int) + 2 ^ 31) % 2 ^ 32 - 2 ^ 31

/-- Read `querytext[p]`. -/
def charAt (querytext : List Nat) (p : Nat) : Except Fault Nat :=
  match querytext[p]? with
  | some c => .ok c
  | none => if p = querytext.length then .ok 0 else .error .outOfBounds

/-- Evaluate `strlen(querytext + p)`. -/
def strlen (querytext : List Nat) (p : Nat) : Except Fault Nat :=
  if p ≤ querytext.length then .ok (querytext.length - p) else .error .outOfBounds

/-- The bytes `[p, p + len)` of the string object, as a reader of `len` bytes
from `querytext + p` sees them. -/
def readSpan (querytext : List Nat) (p len : Nat) : Except Fault (List Nat) :=
  if p + len ≤ querytext.length + 1 then .ok (((querytext ++ [0]).drop p).take len)
  else .error .outOfBounds

/-- The host's `Assert(cond)`. -/
def Assert (h : Host) (cond : Bool) : Except Fault Unit :=
  if h.USE_ASSERT_CHECKING && !cond then .error .assertionFailed else .ok ()

/-! ## The module's functions -/

/-- The first loop of `get_ql_for_utility`:
`while (query_len > 0 && scanner_isspace(querytext[0])) querytext++, query_location++, query_len--;`
The first argument bounds the number of iterations; `query_len.toNat` is
enough, since each iteration needs `query_len > 0` and decrements it. -/
def skip_leading (h : Host) (text : List Nat) : Nat → TrimLocals → Except Fault TrimLocals
  | 0, s => .ok s
  | fuel + 1, s =>
    if s.query_len > 0 then
      match charAt text s.querytext with
      | .error e => .error e
      | .ok c =>
        if h.scanner_isspace c then
          skip_leading h text fuel ⟨s.querytext + 1, s.query_location + 1, s.query_len - 1⟩
        else .ok s
    else .ok s

/-- The second loop of `get_ql_for_utility`:
`while (query_len > 0 && scanner_isspace(querytext[query_len - 1])) query_len--;` -/
def strip_trailing (h : Host) (text : List Nat) : Nat → TrimLocals → Except Fault TrimLocals
  | 0, s => .ok s
  | fuel + 1, s =>
    if s.query_len > 0 then
      match charAt text (s.querytext + (s.query_len - 1).toNat) with
      | .error e => .error e
      | .ok c =>
        if h.scanner_isspace c then
          strip_trailing h text fuel ⟨s.querytext, s.query_location, s.query_len - 1⟩
        else .ok s
    else .ok s

/-- The two trimming loops, run one after the other. -/
def trim_loops (h : Host) (text : List Nat) (s : TrimLocals) : Except Fault TrimLocals :=
  match skip_leading h text s.query_len.toNat s with
  | .error e => .error e
  | .ok s1 => strip_trailing h text s1.query_len.toNat s1

/-- The body of `get_ql_for_utility`, returning the final values of its locals. -/
def get_ql_for_utility_locals (h : Host) (text : List Nat) (query_len query_location : Int) :
    Except Fault TrimLocals :=
  if query_location ≥ 0 then
    match Assert h (decide (query_location ≤ (text.length : Int))) with
    | .error e => .error e
    | .ok _ =>
      if query_len ≤ 0 then
        match strlen text query_location.toNat with
        | .error e => .error e
        | .ok n => trim_loops h text ⟨query_location.toNat, query_location, toInt32 n⟩
      else if h.USE_ASSERT_CHECKING then
        match strlen text query_location.toNat with
        | .error e => .error e
        | .ok n =>
          match Assert h (decide (query_len ≤ (n : Int))) with
          | .error e => .error e
          | .ok _ => trim_loops h text ⟨query_location.toNat, query_location, query_len⟩
      else trim_loops h text ⟨query_location.toNat, query_location, query_len⟩
  else
    match strlen text 0 with
    | .error e => .error e
    | .ok n => trim_loops h text ⟨0, 0, toInt32 n⟩

/-- The function `get_ql_for_utility(querytext, query_len, query_location)`: it
returns `query_len`; its pointer and location are locals and are dropped. -/
def get_ql_for_utility (h : Host) (querytext : List Nat) (query_len query_location : Int) :
    Except Fault Int :=
  match get_ql_for_utility_locals h querytext query_len query_location with
  | .error e => .error e
  | .ok s => .ok s.query_len

/-- The function `getparsedinfo_hash64_string(str, len)` with `str` the pointer
`text + p`: the host's `hash_any_extended` over `len` bytes, seed 0. -/
def getparsedinfo_hash64_string (h : Host) (text : List Nat) (p : Nat) (len : Int) :
    Except Fault Nat :=
  match readSpan text p len.toNat with
  | .error e => .error e
  | .ok span => .ok (h.hash_any_extended span 0)

/-- The statement as the module's own code sees it, after the chained
post-parse hook (if any) has run on it. -/
def chained_post_parse_analyze (b : Backend) (pstate : ParseState) (query : Query) : Query :=
  match b.prev_post_parse_analyze_hook with
  | some prev => prev pstate query
  | none => query

/-- The query descriptor after the chained execution-start hook or, without
one, `standard_ExecutorStart` has run on it. -/
def chained_ExecutorStart (h : Host) (b : Backend) (queryDesc : QueryDesc) (eflags : Int) :
    QueryDesc :=
  match b.prev_ExecutorStart with
  | some prev => prev queryDesc eflags
  | none => h.standard_ExecutorStart queryDesc eflags

/-- The assignment `QueryIdArray[i] = v`. -/
def setQueryId (b : Backend) (i v : Nat) : Backend :=
  { b with QueryIdArray := Function.update b.QueryIdArray i v }

/-- The byte span the utility branch of `pgqi_post_parse_analyze` hands to the
hasher: `query_len` bytes from `querytext`, the caller's pointer, which
`get_ql_for_utility` received by value. -/
def utility_hashed_span (h : Host) (pstate : ParseState) (query : Query) :
    Except Fault (List Nat) :=
  match get_ql_for_utility h pstate.p_sourcetext query.stmt_len query.stmt_location with
  | .error e => .error e
  | .ok query_len => readSpan pstate.p_sourcetext 0 query_len.toNat

/-- Hook B, `pgqi_ExecutorStart(queryDesc, eflags)`. -/
def pgqi_ExecutorStart (h : Host) (b : Backend) (queryDesc : QueryDesc) (eflags : Int) :
    Backend :=
  let queryDesc := chained_ExecutorStart h b queryDesc eflags
  match b.MyProc with
  | some i => setQueryId b i queryDesc.plannedstmt.queryId
  | none => b

/-- Hook A, `pgqi_post_parse_analyze(pstate, query)`. -/
def pgqi_post_parse_analyze (h : Host) (b : Backend) (pstate : ParseState) (query : Query) :
    Except Fault Backend :=
  let query := chained_post_parse_analyze b pstate query
  match b.MyProc with
  | some i =>
    if query.queryId ≠ 0 then
      .ok (setQueryId b i query.queryId)
    else if query.commandType = CmdType.CMD_UTILITY ∧ b.pgqi_track_utility = true then
      let querytext := pstate.p_sourcetext
      match get_ql_for_utility h querytext query.stmt_len query.stmt_location with
      | .error e => .error e
      | .ok query_len =>
        match getparsedinfo_hash64_string h querytext 0 query_len with
        | .error e => .error e
        | .ok queryid_utility =>
          .ok (setQueryId b i (if queryid_utility = 0 then 2 else queryid_utility))
    else
      .ok (setQueryId b i 0)
  | none => .ok b

/-- The loop of `pg_get_queryid`, from index `i` with `fuel` iterations left
(`allProcCount - i`). -/
def pg_get_queryid_loop (b : Backend) (pid : Int) : Nat → Nat → Nat
  | 0, _ => 0
  | fuel + 1, i =>
    let proc := b.ProcGlobal.allProcs i
    if proc.pid ≠ 0 ∧ proc.pid = pid then b.QueryIdArray i
    else pg_get_queryid_loop b pid fuel (i + 1)

/-- The SQL function `pg_get_queryid(pid)`. -/
def pg_get_queryid (b : Backend) (pid : Int) : Nat :=
  pg_get_queryid_loop b pid b.ProcGlobal.allProcCount 0

/-! ## Reference notions used to state the properties -/

/-- Removal of leading and trailing whitespace, for a whitespace test `sp`. -/
def lexer_trim (sp : Nat → Bool) (l : List Nat) : List Nat :=
  (l.dropWhile sp).rdropWhile sp

/-- The slice of the text a statement's location and length denote: the whole
text for a negative location, otherwise `[location, location + length)`, the
rest of the text from `location` when `length ≤ 0`. -/
def stmt_slice (text : List Nat) (len loc : Int) : List Nat :=
  if loc < 0 then text
  else if len ≤ 0 then text.drop loc.toNat
  else (text.drop loc.toNat).take len.toNat

/-- The offset in the text at which the slice of `stmt_slice` starts. -/
def slice_start (loc : Int) : Nat :=
  if loc < 0 then 0 else loc.toNat

/-- The location and length agree with the text: the location is unknown
(negative), or it lies inside the text and a positive length fits in what
remains after it. -/
def span_in_text (text : List Nat) (len loc : Int) : Prop :=
  loc < 0 ∨ (loc ≤ (text.length : Int) ∧ len ≤ (text.length : Int) - loc)

instance (text : List Nat) (len loc : Int) : Decidable (span_in_text text len loc) := by
  unfold span_in_text; infer_instance

/-- The statement's text is one the conversion to `int` keeps exact, and its
location and length agree with the text. -/
def stmt_in_text (pstate : ParseState) (query : Query) : Prop :=
  pstate.p_sourcetext.length < 2 ^ 31 ∧
    span_in_text pstate.p_sourcetext query.stmt_len query.stmt_location

instance (pstate : ParseState) (query : Query) : Decidable (stmt_in_text pstate query) := by
  unfold stmt_in_text; infer_instance

/-- Slot `i` of the process table is live and has the given pid: the test of
the loop in `pg_get_queryid`. -/
def slot_matches (b : Backend) (pid : Int) (i : Nat) : Prop :=
  (b.ProcGlobal.allProcs i).pid ≠ 0 ∧ (b.ProcGlobal.allProcs i).pid = pid

instance (b : Backend) (pid : Int) (i : Nat) : Decidable (slot_matches b pid i) := by
  unfold slot_matches; infer_instance

deriving instance DecidableEq for Except

/-- The value of entry `i` after `pgqi_post_parse_analyze`, or the fault it ends in. -/
def entry_after_post_parse (h : Host) (b : Backend) (pstate : ParseState) (query : Query)
    (i : Nat) : Except Fault Nat :=
  match pgqi_post_parse_analyze h b pstate query with
  | .error e => .error e
  | .ok b1 => .ok (b1.QueryIdArray i)

/-- The function `get_ql_for_utility` returns, with a non-negative length, and the
span of that length from the pointer its loops arrive at lies inside the text. -/
def returns_span_inside (h : Host) (text : List Nat) (len loc : Int) : Prop :=
  ∃ (s : TrimLocals) (L : Int),
    get_ql_for_utility_locals h text len loc = .ok s ∧
    get_ql_for_utility h text len loc = .ok L ∧
    L = s.query_len ∧ 0 ≤ L ∧ (s.querytext : Int) + L ≤ (text.length : Int)

/-! ## Concrete host values used in examples -/

/-- The bytes of an ASCII string. -/
def ascii (s : String) : List Nat :=
  s.toList.map Char.toNat

/-- The host lexer's whitespace test (`scansup.c`): space, tab, newline,
carriage return, form feed. -/
def lexer_isspace (ch : Nat) : Bool :=
  ch = 32 || ch = 9 || ch = 10 || ch = 13 || ch = 12

/-- A host for examples: the lexer's whitespace, a hash that reads the bytes of
the span as a base-256 numeral, and an execution start that leaves the plan
alone. -/
def exampleHost (assertions : Bool) : Host where
  USE_ASSERT_CHECKING := assertions
  scanner_isspace := lexer_isspace
  hash_any_extended := fun span seed => span.foldl (fun acc c => acc * 256 + c) seed
  standard_ExecutorStart := fun queryDesc _ => queryDesc

/-- A process table for examples: the slots listed, in order. -/
def tableOf (pids : List Int) : PROC_HDR where
  allProcs := fun i => ⟨pids.getD i 0⟩
  allProcCount := pids.length

/-- A backend for examples. -/
def exampleBackend (me : Option Nat) (pids : List Int) (registry : List Nat) (track : Bool) :
    Backend where
  MyProc := me
  ProcGlobal := tableOf pids
  QueryIdArray := fun i => registry.getD i 0
  pgqi_track_utility := track
  prev_post_parse_analyze_hook := none
  prev_ExecutorStart := none

/-! ## Registry accesses, module load and shared-memory startup -/

/-- The call `pg_get_queryid(pid)` as a step on the state: the function has no
assignment, so the state it leaves is the state it found. -/
def pg_get_queryid_call (b : Backend) (pid : Int) : Backend × Nat :=
  (b, pg_get_queryid b pid)

/-- The index `i` of the read `QueryIdArray[i]` in the loop of `pg_get_queryid`,
from index `i` with `fuel` iterations left; `none` when the loop ends without
a read. -/
def pg_get_queryid_loop_index (b : Backend) (pid : Int) : Nat → Nat → Option Nat
  | 0, _ => none
  | fuel + 1, i =>
    let proc := b.ProcGlobal.allProcs i
    if proc.pid ≠ 0 ∧ proc.pid = pid then some i
    else pg_get_queryid_loop_index b pid fuel (i + 1)

/-- The registry index `pg_get_queryid(pid)` reads, if it reads one. -/
def pg_get_queryid_index (b : Backend) (pid : Int) : Option Nat :=
  pg_get_queryid_loop_index b pid b.ProcGlobal.allProcCount 0

/-- The index `i = MyProc - ProcGlobal->allProcs` of the assignments
`QueryIdArray[i] = ...` in the two hooks; with a null `MyProc` no assignment is
reached. -/
def pgqi_write_index (b : Backend) : Option Nat :=
  b.MyProc

/-- Addresses a hook point can hold: the module's three hook functions and
functions of other extensions. -/
inductive HookFn where
  | pgqi_shmem_startup
  | pgqi_post_parse_analyze
  | pgqi_ExecutorStart
  | foreign (id : Nat)
  deriving DecidableEq, Repr

/-- What `_PG_init` and `_PG_fini` read and write: the host's preload flag and
three hook points, the module's three saved hooks and its configuration
variable, the names of the custom variables defined so far and the value the
configuration gives to `pg_get_queryid.track_utility`, if it sets one. A null
pointer is `none`. -/
structure Loader where
  process_shared_preload_libraries_in_progress : Bool
  shmem_startup_hook : Option HookFn
  post_parse_analyze_hook : Option HookFn
  ExecutorStart_hook : Option HookFn
  pgqi_prev_shmem_startup_hook : Option HookFn
  prev_post_parse_analyze_hook : Option HookFn
  prev_ExecutorStart : Option HookFn
  pgqi_track_utility : Bool
  custom_variables : List String
  configured_track_utility : Option Bool
  deriving DecidableEq, Repr

/-- The state in which the library's `_PG_init` is entered: the statics hold
their C initialisers (`NULL` for the saved hooks, `false` for the flag). -/
def libraryLoaded (preload : Bool) (shmem post_parse executor : Option HookFn)
    (configured : Option Bool) : Loader where
  process_shared_preload_libraries_in_progress := preload
  shmem_startup_hook := shmem
  post_parse_analyze_hook := post_parse
  ExecutorStart_hook := executor
  pgqi_prev_shmem_startup_hook := none
  prev_post_parse_analyze_hook := none
  prev_ExecutorStart := none
  pgqi_track_utility := false
  custom_variables := []
  configured_track_utility := configured

/-- The host's `DefineCustomBoolVariable` for `pg_get_queryid.track_utility` with
boot value `bootValue`: the variable takes the configured value if there is
one, the boot value otherwise. -/
def DefineCustomBoolVariable (s : Loader) (name : String) (bootValue : Bool) : Loader :=
  { s with
    custom_variables := name :: s.custom_variables
    pgqi_track_utility := s.configured_track_utility.getD bootValue }

/-- The function `_PG_init()`. -/
def _PG_init (s : Loader) : Loader :=
  if !s.process_shared_preload_libraries_in_progress then s
  else
    let s := DefineCustomBoolVariable s "pg_get_queryid.track_utility" true
    let s := { s with pgqi_prev_shmem_startup_hook := s.shmem_startup_hook }
    let s := { s with shmem_startup_hook := some HookFn.pgqi_shmem_startup }
    let s := { s with prev_post_parse_analyze_hook := s.post_parse_analyze_hook }
    let s := { s with post_parse_analyze_hook := some HookFn.pgqi_post_parse_analyze }
    let s := { s with prev_ExecutorStart := s.ExecutorStart_hook }
    { s with ExecutorStart_hook := some HookFn.pgqi_ExecutorStart }

/-- The function `_PG_fini()`. -/
def _PG_fini (s : Loader) : Loader :=
  let s := { s with shmem_startup_hook := s.pgqi_prev_shmem_startup_hook }
  let s := { s with post_parse_analyze_hook := s.prev_post_parse_analyze_hook }
  { s with ExecutorStart_hook := s.prev_ExecutorStart }

/-- The three host values `get_max_procs_count` adds up. -/
structure HostConfig where
  MaxBackends : Int
  NUM_AUXILIARY_PROCS : Int
  max_prepared_xacts : Int
  deriving DecidableEq, Repr

/-- An `int` result brought back to 32 bits (the host is built with wrapping
signed arithmetic). -/
def wrapInt32 (x : Int) : Int :=
  (x + 2 ^ 31) % 2 ^ 32 - 2 ^ 31

/-- Conversion of an `int` to `Size`. -/
def toSize (x : Int) : Nat :=
  (x % 2 ^ 64).toNat

/-- The function `get_max_procs_count()`. -/
def get_max_procs_count (c : HostConfig) : Int :=
  let count : Int := 0
  let count := wrapInt32 (count + c.MaxBackends)
  let count := wrapInt32 (count + c.NUM_AUXILIARY_PROCS)
  let count := wrapInt32 (count + c.max_prepared_xacts)
  count

/-- Ways in which the shared-memory startup can end in a host error. -/
inductive StartupFault where
  | sizeOverflow
  | shmemSizeMismatch
  | outOfShmem
  deriving DecidableEq, Repr

/-- The host's shared memory as the module sees it: the 64-bit words of the
region named `"pg_get_queryid proc entry array"` once it exists, and the bytes
still free. -/
structure Shmem where
  region : Option (List Nat)
  free : Nat
  deriving DecidableEq, Repr

/-- The host's `mul_size`: a product of two `Size` values, an error on overflow. -/
def mul_size (s1 s2 : Nat) : Except StartupFault Nat :=
  if s1 * s2 < 2 ^ 64 then .ok (s1 * s2) else .error .sizeOverflow

/-- The host's `ShmemInitStruct` for the module's region name: an existing region
is returned with `found = true`, provided the size asked for is the size it
has; otherwise `size` bytes are taken from the free space, with whatever
contents `uninit` they have, and `found = false`. -/
def ShmemInitStruct (uninit : Nat → Nat) (s : Shmem) (size : Nat) :
    Except StartupFault (Shmem × Bool) :=
  match s.region with
  | some words =>
    if 8 * words.length = size then .ok (s, true) else .error .shmemSizeMismatch
  | none =>
    if size ≤ s.free then
      .ok (⟨some ((List.range (size / 8)).map uninit), s.free - size⟩, false)
    else .error .outOfShmem

/-- The host's `MemSet(start, 0, len)` on an array of 64-bit words. -/
def MemSet (words : List Nat) (len : Nat) : List Nat :=
  List.replicate (min (len / 8) words.length) 0 ++ words.drop (len / 8)

/-- The value of the local `size` in `pgqi_shmem_startup`:
`mul_size(sizeof(uint64), get_max_procs_count())`, stored in an `int`. -/
def pgqi_shmem_size (c : HostConfig) : Except StartupFault Int :=
  match mul_size 8 (toSize (get_max_procs_count c)) with
  | .error e => .error e
  | .ok sz => .ok (toInt32 sz)

/-- The function `pgqi_shmem_startup()`, on the module's region; afterwards
`QueryIdArray` points to that region. The chained startup hook is foreign code
working on other regions, and the lock taken and released around the body
leaves no trace in a run of one process. -/
def pgqi_shmem_startup (c : HostConfig) (uninit : Nat → Nat) (s : Shmem) :
    Except StartupFault Shmem :=
  match pgqi_shmem_size c with
  | .error e => .error e
  | .ok size =>
    match ShmemInitStruct uninit s (toSize size) with
    | .error e => .error e
    | .ok (s1, found) =>
      if !found then
        .ok { s1 with region := s1.region.map (fun words => MemSet words (toSize size)) }
      else .ok s1

/-- The registry `QueryIdArray` points to after the startup. -/
def Shmem.QueryIdArray (s : Shmem) : List Nat :=
  s.region.getD []

/-- The three host values are counts, and the region size they give fits in an
`int`: what the host's limits on them guarantee. -/
def HostConfig.inRange (c : HostConfig) : Prop :=
  0 ≤ c.MaxBackends ∧ 0 ≤ c.NUM_AUXILIARY_PROCS ∧ 0 ≤ c.max_prepared_xacts ∧
    8 * (c.MaxBackends + c.NUM_AUXILIARY_PROCS + c.max_prepared_xacts) < 2 ^ 31

instance (c : HostConfig) : Decidable c.inRange := by
  unfold HostConfig.inRange; infer_instance

/-- A registry index lies inside a registry of `capacity` entries. -/
def index_in_registry (capacity : Int) (i : Nat) : Prop :=
  0 ≤ (i : Int) ∧ (i : Int) < capacity

instance (capacity : Int) (i : Nat) : Decidable (index_in_registry capacity i) := by
  unfold index_in_registry; infer_instance

/-! ## Auxiliary lemmas -/

theorem toInt32_of_lt (n : Nat) (hn : n < 2 ^ 31) : toInt32 n = (n : Int) := by
  unfold toInt32
  have : (n : Int) < 2 ^ 31 := by exact_mod_cast hn
  omega

theorem charAt_of_lt (text : List Nat) (p : Nat) (hp : p < text.length) :
    charAt text p = .ok (text[p]) := by
  simp [charAt, List.getElem?_eq_getElem hp]

theorem skip_leading_spec (h : Host) (text : List Nat) :
    ∀ (k : Nat) (s : TrimLocals), s.query_len = (k : Int) → s.querytext + k ≤ text.length →
      ∃ c : Nat, c ≤ k ∧
        skip_leading h text k s
          = .ok ⟨s.querytext + c, s.query_location + (c : Int), ((k - c : Nat) : Int)⟩ ∧
        (text.drop (s.querytext + c)).take (k - c)
          = ((text.drop s.querytext).take k).dropWhile h.scanner_isspace := by
  intro k
  induction k with
  | zero =>
    intro s hs _
    refine ⟨0, le_refl _, ?_, by simp⟩
    cases s
    simp_all [skip_leading]
  | succ k ih =>
    intro s hs hb
    have hp : s.querytext < text.length := by omega
    have hpos : s.query_len > 0 := by omega
    have hwin : (text.drop s.querytext).take (k + 1)
        = text[s.querytext] :: (text.drop (s.querytext + 1)).take k := by
      rw [List.drop_eq_getElem_cons hp, List.take_succ_cons]
    by_cases hsp : h.scanner_isspace (text[s.querytext]) = true
    · obtain ⟨c, hc, hrun, hw⟩ :=
        ih ⟨s.querytext + 1, s.query_location + 1, s.query_len - 1⟩ (by simp; omega)
          (by simp; omega)
      refine ⟨c + 1, by omega, ?_, ?_⟩
      · simp only [skip_leading, hpos, if_true, charAt_of_lt text _ hp, hsp]
        rw [hrun]
        simp only [Except.ok.injEq, TrimLocals.mk.injEq]
        refine ⟨by omega, by push_cast; ring, by congr 1; omega⟩
      · have e1 : k + 1 - (c + 1) = k - c := by omega
        have e2 : s.querytext + (c + 1) = s.querytext + 1 + c := by omega
        rw [hwin, List.dropWhile_cons_of_pos hsp, ← hw, e1, e2]
    · refine ⟨0, by omega, ?_, ?_⟩
      · simp only [skip_leading, hpos, if_true, charAt_of_lt text _ hp, hsp]
        cases s
        simp_all
      · rw [hwin, List.dropWhile_cons_of_neg hsp]
        simpa using hwin

theorem strip_trailing_spec (h : Host) (text : List Nat) :
    ∀ (k : Nat) (s : TrimLocals), s.query_len = (k : Int) → s.querytext + k ≤ text.length →
      ∃ m : Nat, m ≤ k ∧
        strip_trailing h text k s = .ok ⟨s.querytext, s.query_location, (m : Int)⟩ ∧
        (text.drop s.querytext).take m
          = ((text.drop s.querytext).take k).rdropWhile h.scanner_isspace := by
  intro k
  induction k with
  | zero =>
    intro s hs _
    refine ⟨0, le_refl _, ?_, by simp⟩
    cases s
    simp_all [strip_trailing]
  | succ k ih =>
    intro s hs hb
    have hp : s.querytext + k < text.length := by omega
    have hpos : s.query_len > 0 := by omega
    have hidx : s.querytext + (s.query_len - 1).toNat = s.querytext + k := by omega
    have hwin : (text.drop s.querytext).take (k + 1)
        = (text.drop s.querytext).take k ++ [text[s.querytext + k]] := by
      rw [List.take_succ]
      congr 1
      simp [List.getElem?_drop, List.getElem?_eq_getElem hp]
    by_cases hsp : h.scanner_isspace (text[s.querytext + k]) = true
    · obtain ⟨m, hm, hrun, hw⟩ :=
        ih ⟨s.querytext, s.query_location, s.query_len - 1⟩ (by simp; omega) (by simp; omega)
      refine ⟨m, by omega, ?_, ?_⟩
      · simp only [strip_trailing, hpos, if_true, hidx, charAt_of_lt text _ hp, hsp]
        rw [hrun]
      · rw [hwin, List.rdropWhile_concat_pos _ _ _ hsp]
        exact hw
    · refine ⟨k + 1, le_refl _, ?_, ?_⟩
      · simp only [strip_trailing, hpos, if_true, hidx, charAt_of_lt text _ hp, hsp]
        cases s
        simp_all
      · rw [hwin, List.rdropWhile_concat_neg _ _ _ hsp]

/-- The iteration bound of `skip_leading` is never what stops it: started with
at least `query_len` iterations allowed, it returns only where the condition of
the C loop is false. -/
theorem skip_leading_exit (h : Host) (text : List Nat) :
    ∀ (fuel : Nat) (s s1 : TrimLocals), s.query_len ≤ (fuel : Int) →
      skip_leading h text fuel s = .ok s1 →
      s1.query_len ≤ 0 ∨ ∃ c, charAt text s1.querytext = .ok c ∧ h.scanner_isspace c = false := by
  intro fuel
  induction fuel with
  | zero =>
    intro s s1 hs hrun
    simp only [skip_leading, Except.ok.injEq] at hrun
    subst hrun
    left
    simpa using hs
  | succ fuel ih =>
    intro s s1 hs hrun
    simp only [skip_leading] at hrun
    split_ifs at hrun with hpos
    · split at hrun
      · exact absurd hrun (by simp)
      · rename_i c hc
        split_ifs at hrun with hsp
        · exact ih _ s1 (by simp only; push_cast at hs; omega) hrun
        · simp only [Except.ok.injEq] at hrun
          subst hrun
          exact Or.inr ⟨c, hc, by simpa using hsp⟩
    · simp only [Except.ok.injEq] at hrun
      subst hrun
      exact Or.inl (by omega)

/-- The iteration bound of `strip_trailing` is never what stops it. -/
theorem strip_trailing_exit (h : Host) (text : List Nat) :
    ∀ (fuel : Nat) (s s1 : TrimLocals), s.query_len ≤ (fuel : Int) →
      strip_trailing h text fuel s = .ok s1 →
      s1.query_len ≤ 0 ∨
        ∃ c, charAt text (s1.querytext + (s1.query_len - 1).toNat) = .ok c ∧
          h.scanner_isspace c = false := by
  intro fuel
  induction fuel with
  | zero =>
    intro s s1 hs hrun
    simp only [strip_trailing, Except.ok.injEq] at hrun
    subst hrun
    left
    simpa using hs
  | succ fuel ih =>
    intro s s1 hs hrun
    simp only [strip_trailing] at hrun
    split_ifs at hrun with hpos
    · split at hrun
      · exact absurd hrun (by simp)
      · rename_i c hc
        split_ifs at hrun with hsp
        · exact ih _ s1 (by simp only; push_cast at hs; omega) hrun
        · simp only [Except.ok.injEq] at hrun
          subst hrun
          exact Or.inr ⟨c, hc, by simpa using hsp⟩
    · simp only [Except.ok.injEq] at hrun
      subst hrun
      exact Or.inl (by omega)

theorem trim_loops_spec (h : Host) (text : List Nat) (p n : Nat) (loc : Int)
    (hb : p + n ≤ text.length) :
    ∃ c m : Nat, c + m ≤ n ∧
      trim_loops h text ⟨p, loc, (n : Int)⟩ = .ok ⟨p + c, loc + (c : Int), (m : Int)⟩ ∧
      (text.drop (p + c)).take m
        = lexer_trim h.scanner_isspace ((text.drop p).take n) := by
  obtain ⟨c, hc, hrun1, hw1⟩ := skip_leading_spec h text n ⟨p, loc, (n : Int)⟩ rfl hb
  obtain ⟨m, hm, hrun2, hw2⟩ :=
    strip_trailing_spec h text (n - c) ⟨p + c, loc + (c : Int), ((n - c : Nat) : Int)⟩ rfl
      (by simp only; omega)
  refine ⟨c, m, by omega, ?_, ?_⟩
  · simp only [trim_loops, Int.toNat_ofNat, hrun1, hrun2]
  · simp only at hw1 hw2
    rw [lexer_trim, ← hw1, ← hw2]

theorem get_ql_for_utility_locals_spec (h : Host) (text : List Nat) (len loc : Int)
    (hlen : text.length < 2 ^ 31) (hspan : span_in_text text len loc) :
    ∃ c m : Nat, slice_start loc + c + m ≤ text.length ∧
      get_ql_for_utility_locals h text len loc
        = .ok ⟨slice_start loc + c, (slice_start loc : Int) + (c : Int), (m : Int)⟩ ∧
      (text.drop (slice_start loc + c)).take m
        = lexer_trim h.scanner_isspace (stmt_slice text len loc) := by
  by_cases hloc : loc < 0
  · obtain ⟨c, m, hcm, hrun, hw⟩ := trim_loops_spec h text 0 text.length 0 (by omega)
    refine ⟨c, m, by simp [slice_start, hloc]; omega, ?_, ?_⟩
    · have hn : ¬ loc ≥ 0 := by omega
      simp only [get_ql_for_utility_locals, hn, if_false, strlen, Nat.zero_le, if_true,
        Nat.sub_zero, toInt32_of_lt _ hlen, hrun, slice_start, hloc]
      simp
    · simpa [slice_start, stmt_slice, hloc] using hw
  · have hinside : loc ≤ (text.length : Int) ∧ len ≤ (text.length : Int) - loc := by
      rcases hspan with h1 | h1
      · exact absurd h1 hloc
      · exact h1
    have hnn : loc ≥ 0 := by omega
    have hp : loc.toNat ≤ text.length := by omega
    have hcast : ((loc.toNat : Nat) : Int) = loc := Int.toNat_of_nonneg hnn
    have hassert : Assert h (decide (loc ≤ (text.length : Int))) = .ok () := by
      simp [Assert, hinside.1]
    by_cases hl : len ≤ 0
    · obtain ⟨c, m, hcm, hrun, hw⟩ :=
        trim_loops_spec h text loc.toNat (text.length - loc.toNat) loc (by omega)
      refine ⟨c, m, by simp [slice_start, hloc]; omega, ?_, ?_⟩
      · have hlt : text.length - loc.toNat < 2 ^ 31 := by omega
        simp only [get_ql_for_utility_locals, hnn, if_true, hassert, hl, strlen, hp,
          toInt32_of_lt _ hlt, hrun, slice_start, hloc, if_false, hcast]
      · have : List.take (text.length - loc.toNat) (List.drop loc.toNat text)
            = List.drop loc.toNat text := by
          apply List.take_of_length_le
          simp
        simpa [slice_start, stmt_slice, hloc, hl, this] using hw
    · have hlen2 : len.toNat ≤ text.length - loc.toNat := by omega
      have hcast2 : ((len.toNat : Nat) : Int) = len := Int.toNat_of_nonneg (by omega)
      obtain ⟨c, m, hcm, hrun, hw⟩ :=
        trim_loops_spec h text loc.toNat len.toNat loc (by omega)
      rw [hcast2] at hrun
      refine ⟨c, m, by simp [slice_start, hloc]; omega, ?_, ?_⟩
      · have hassert2 : Assert h (decide (len ≤ ((text.length - loc.toNat : Nat) : Int)))
            = .ok () := by
          have : len ≤ ((text.length - loc.toNat : Nat) : Int) := by omega
          simp [Assert, this]
        cases hA : h.USE_ASSERT_CHECKING
        · simp [get_ql_for_utility_locals, hnn, hassert, hl, hA, hrun, slice_start, hloc, hcast]
        · simp only [get_ql_for_utility_locals, hnn, if_true, hassert, hl, if_false, hA,
            strlen, hp, hassert2, hrun, slice_start, hloc, hcast]
      · simpa [slice_start, stmt_slice, hloc, hl] using hw

theorem get_ql_for_utility_eq (h : Host) (text : List Nat) (len loc : Int)
    (hlen : text.length < 2 ^ 31) (hspan : span_in_text text len loc) :
    get_ql_for_utility h text len loc
      = .ok (((lexer_trim h.scanner_isspace (stmt_slice text len loc)).length : Nat) : Int) := by
  obtain ⟨c, m, hb, hrun, hw⟩ := get_ql_for_utility_locals_spec h text len loc hlen hspan
  have hm : (lexer_trim h.scanner_isspace (stmt_slice text len loc)).length = m := by
    rw [← hw, List.length_take, List.length_drop]
    omega
  simp [get_ql_for_utility, hrun, hm]

theorem trimmed_length_le (sp : Nat → Bool) (text : List Nat) (len loc : Int) :
    (lexer_trim sp (stmt_slice text len loc)).length ≤ text.length := by
  have h1 : ∀ l : List Nat, (lexer_trim sp l).length ≤ l.length := by
    intro l
    have ha := ( List.rdropWhile_prefix sp (l := l.dropWhile sp)).length_le
    have hb := (List.dropWhile_suffix sp (l := l)).length_le
    exact le_trans ha hb
  refine le_trans (h1 _) ?_
  unfold stmt_slice
  split_ifs <;> simp [List.length_take, List.length_drop]

theorem readSpan_zero_of_le (text : List Nat) (n : Nat) (hn : n ≤ text.length) :
    readSpan text 0 n = .ok (text.take n) := by
  have : n ≤ text.length + 1 := by omega
  simp [readSpan, this, List.take_append_of_le_length hn]

theorem utility_hashed_span_eq (h : Host) (pstate : ParseState) (query : Query)
    (hq : stmt_in_text pstate query) :
    utility_hashed_span h pstate query
      = .ok (pstate.p_sourcetext.take
          (lexer_trim h.scanner_isspace
            (stmt_slice pstate.p_sourcetext query.stmt_len query.stmt_location)).length) := by
  simp only [utility_hashed_span, get_ql_for_utility_eq h _ _ _ hq.1 hq.2, Int.toNat_ofNat]
  exact readSpan_zero_of_le _ _ (trimmed_length_le _ _ _ _)

@[simp] theorem setQueryId_get (b : Backend) (i v : Nat) :
    (setQueryId b i v).QueryIdArray i = v := by
  simp [setQueryId]

@[simp] theorem setQueryId_MyProc (b : Backend) (i v : Nat) :
    (setQueryId b i v).MyProc = b.MyProc := rfl

@[simp] theorem setQueryId_ProcGlobal (b : Backend) (i v : Nat) :
    (setQueryId b i v).ProcGlobal = b.ProcGlobal := rfl

@[simp] theorem setQueryId_prev_ExecutorStart (b : Backend) (i v : Nat) :
    (setQueryId b i v).prev_ExecutorStart = b.prev_ExecutorStart := rfl

@[simp] theorem setQueryId_prev_post_parse (b : Backend) (i v : Nat) :
    (setQueryId b i v).prev_post_parse_analyze_hook = b.prev_post_parse_analyze_hook := rfl

@[simp] theorem setQueryId_track (b : Backend) (i v : Nat) :
    (setQueryId b i v).pgqi_track_utility = b.pgqi_track_utility := rfl

theorem pgqi_ExecutorStart_eq (h : Host) (b : Backend) (queryDesc : QueryDesc) (eflags : Int)
    (i : Nat) (hproc : b.MyProc = some i) :
    pgqi_ExecutorStart h b queryDesc eflags
      = setQueryId b i (chained_ExecutorStart h b queryDesc eflags).plannedstmt.queryId := by
  simp [pgqi_ExecutorStart, hproc]

/-- Hook A in a registered process, on a statement whose location and length
agree with its text, returns, and what it does is one write to the own entry. -/
theorem pgqi_post_parse_analyze_returns (h : Host) (b : Backend) (pstate : ParseState)
    (query : Query) (i : Nat) (hproc : b.MyProc = some i)
    (hq : stmt_in_text pstate (chained_post_parse_analyze b pstate query)) :
    ∃ v, pgqi_post_parse_analyze h b pstate query = .ok (setQueryId b i v) := by
  have hlen := get_ql_for_utility_eq h _ _ _ hq.1 hq.2
  have hle := trimmed_length_le h.scanner_isspace pstate.p_sourcetext
    (chained_post_parse_analyze b pstate query).stmt_len
    (chained_post_parse_analyze b pstate query).stmt_location
  simp only [pgqi_post_parse_analyze, hproc]
  split_ifs
  · exact ⟨_, rfl⟩
  · simp only [hlen, getparsedinfo_hash64_string, Int.toNat_ofNat, readSpan_zero_of_le _ _ hle]
    exact ⟨_, rfl⟩
  · exact ⟨_, rfl⟩

/-- In the utility branch, for every input, the entry Hook A leaves is the hash
(or 2) of `utility_hashed_span`, and the hook ends in a fault exactly when
computing that span does. -/
theorem entry_after_post_parse_utility (h : Host) (b : Backend) (pstate : ParseState)
    (query : Query) (i : Nat) (hproc : b.MyProc = some i)
    (hid : (chained_post_parse_analyze b pstate query).queryId = 0)
    (hcmd : (chained_post_parse_analyze b pstate query).commandType = CmdType.CMD_UTILITY)
    (htrack : b.pgqi_track_utility = true) :
    entry_after_post_parse h b pstate query i
      = match utility_hashed_span h pstate (chained_post_parse_analyze b pstate query) with
        | .error e => .error e
        | .ok span =>
          .ok (if h.hash_any_extended span 0 = 0 then 2 else h.hash_any_extended span 0) := by
  simp only [entry_after_post_parse, pgqi_post_parse_analyze, hproc, hid, hcmd, htrack,
    utility_hashed_span, getparsedinfo_hash64_string]
  generalize get_ql_for_utility h pstate.p_sourcetext
      (chained_post_parse_analyze b pstate query).stmt_len
      (chained_post_parse_analyze b pstate query).stmt_location = r
  cases r with
  | error e => simp
  | ok L =>
    simp only
    generalize readSpan pstate.p_sourcetext 0 L.toNat = r1
    cases r1 with
    | error e => simp
    | ok span => simp

theorem pg_get_queryid_loop_none (b : Backend) (pid : Int) :
    ∀ (fuel start : Nat),
      (∀ j, start ≤ j → j < start + fuel → ¬ slot_matches b pid j) →
      pg_get_queryid_loop b pid fuel start = 0 := by
  intro fuel
  induction fuel with
  | zero => intro start _; rfl
  | succ fuel ih =>
    intro start hno
    have h0 : ¬ slot_matches b pid start := hno start (le_refl _) (by omega)
    have hrest := ih (start + 1) (fun j h1 h2 => hno j (by omega) (by omega))
    unfold slot_matches at h0
    simp only [pg_get_queryid_loop, h0, if_false, hrest]

theorem pg_get_queryid_loop_first (b : Backend) (pid : Int) :
    ∀ (fuel start i : Nat), start ≤ i → i < start + fuel → slot_matches b pid i →
      (∀ j, start ≤ j → j < i → ¬ slot_matches b pid j) →
      pg_get_queryid_loop b pid fuel start = b.QueryIdArray i := by
  intro fuel
  induction fuel with
  | zero => intro start i h1 h2; omega
  | succ fuel ih =>
    intro start i h1 h2 hm hmin
    by_cases hstart : start = i
    · subst hstart
      unfold slot_matches at hm
      simp only [pg_get_queryid_loop]
      rw [if_pos hm]
    · have h0 : ¬ slot_matches b pid start := hmin start (le_refl _) (by omega)
      have hrest := ih (start + 1) i (by omega) (by omega) hm
        (fun j h3 h4 => hmin j (by omega) h4)
      unfold slot_matches at h0
      simp only [pg_get_queryid_loop, h0, if_false, hrest]

/-! ## Lookup and the two hooks -/

/-- C1. Write-then-read round trip: when the calling process owns slot `i` of the
process table, that slot is live with pid `p` and no earlier slot has pid `p`,
then after `pgqi_ExecutorStart` has run with a plan whose queryId is `v`,
`pg_get_queryid(p)` returns `v`, whatever the registry held before. -/
theorem pg_get_queryid_after_ExecutorStart (h : Host) (b : Backend) (queryDesc : QueryDesc)
    (eflags : Int) (i : Nat) (p : Int) (v : Nat)
    (hproc : b.MyProc = some i) (hi : i < b.ProcGlobal.allProcCount)
    (hpid : (b.ProcGlobal.allProcs i).pid = p) (hlive : p ≠ 0)
    (hfirst : ∀ j, j < i → (b.ProcGlobal.allProcs j).pid ≠ p)
    (hv : (chained_ExecutorStart h b queryDesc eflags).plannedstmt.queryId = v) :
    pg_get_queryid (pgqi_ExecutorStart h b queryDesc eflags) p = v := by
  rw [pgqi_ExecutorStart_eq h b queryDesc eflags i hproc, hv]
  have hm : slot_matches (setQueryId b i v) p i := by
    unfold slot_matches
    simp only [setQueryId_ProcGlobal, hpid]
    exact ⟨hlive, trivial⟩
  have hmin : ∀ j, 0 ≤ j → j < i → ¬ slot_matches (setQueryId b i v) p j := by
    intro j _ hj hmj
    exact hfirst j hj hmj.2
  have hrun := pg_get_queryid_loop_first (setQueryId b i v) p
    b.ProcGlobal.allProcCount 0 i (Nat.zero_le _) (by omega) hm hmin
  simpa [pg_get_queryid] using hrun

/-- Witness for C1: slot 1 of a two-slot table has pid 7; the plan carries 99. -/
theorem pg_get_queryid_after_ExecutorStart_witness :
    pg_get_queryid
      (pgqi_ExecutorStart (exampleHost true) (exampleBackend (some 1) [0, 7] [5, 6] true)
        ⟨⟨99⟩⟩ 0) 7 = 99 :=
  pg_get_queryid_after_ExecutorStart (exampleHost true)
    (exampleBackend (some 1) [0, 7] [5, 6] true) ⟨⟨99⟩⟩ 0 1 7 99 rfl (by decide) rfl
    (by decide) (by decide) rfl

/-- C2. Hook A, native identifier: in a registered process with own slot `i`, when
the statement (as the chained hook leaves it) carries a non-zero queryId,
`pgqi_post_parse_analyze` returns and entry `i` then equals that queryId, for
every command type and every value of `track_utility`. -/
theorem pgqi_post_parse_analyze_native (h : Host) (b : Backend) (pstate : ParseState)
    (query : Query) (i : Nat) (hproc : b.MyProc = some i)
    (hid : (chained_post_parse_analyze b pstate query).queryId ≠ 0) :
    ∃ b1, pgqi_post_parse_analyze h b pstate query = .ok b1 ∧
      b1.QueryIdArray i = (chained_post_parse_analyze b pstate query).queryId := by
  refine ⟨setQueryId b i (chained_post_parse_analyze b pstate query).queryId, ?_, by simp⟩
  simp [pgqi_post_parse_analyze, hproc, hid]

/-- Witness for C2: a SELECT with queryId 12345, tracking disabled. -/
theorem pgqi_post_parse_analyze_native_witness :
    ∃ b1, pgqi_post_parse_analyze (exampleHost true)
        (exampleBackend (some 1) [0, 7] [5, 6] false) ⟨ascii "SELECT 1"⟩
        ⟨12345, CmdType.CMD_SELECT, 0, 0⟩ = .ok b1 ∧
      b1.QueryIdArray 1 = 12345 :=
  pgqi_post_parse_analyze_native (exampleHost true)
    (exampleBackend (some 1) [0, 7] [5, 6] false) ⟨ascii "SELECT 1"⟩
    ⟨12345, CmdType.CMD_SELECT, 0, 0⟩ 1 rfl (by decide)

/-- What the utility branch of Hook A does: in a registered process with own slot
`i`, when the statement's queryId is 0, its command type is utility and
`track_utility` is on (and the statement's location and length agree with its
text), the hook returns and entry `i` holds the zero-seed hash of the bytes
the code hands to the hasher (`utility_hashed_span`, which need not be the
trimmed statement), or 2 when that hash is 0; the value written is never 0. -/
theorem pgqi_post_parse_analyze_utility (h : Host) (b : Backend) (pstate : ParseState)
    (query : Query) (i : Nat) (hproc : b.MyProc = some i)
    (hid : (chained_post_parse_analyze b pstate query).queryId = 0)
    (hcmd : (chained_post_parse_analyze b pstate query).commandType = CmdType.CMD_UTILITY)
    (htrack : b.pgqi_track_utility = true)
    (hq : stmt_in_text pstate (chained_post_parse_analyze b pstate query)) :
    ∃ span b1,
      utility_hashed_span h pstate (chained_post_parse_analyze b pstate query) = .ok span ∧
      pgqi_post_parse_analyze h b pstate query = .ok b1 ∧
      b1.QueryIdArray i
        = (if h.hash_any_extended span 0 = 0 then 2 else h.hash_any_extended span 0) ∧
      b1.QueryIdArray i ≠ 0 := by
  have hlen := get_ql_for_utility_eq h _ _ _ hq.1 hq.2
  have hle := trimmed_length_le h.scanner_isspace pstate.p_sourcetext
    (chained_post_parse_analyze b pstate query).stmt_len
    (chained_post_parse_analyze b pstate query).stmt_location
  refine ⟨_, _, utility_hashed_span_eq h pstate _ hq, ?_, setQueryId_get b i _, ?_⟩
  · simp only [pgqi_post_parse_analyze, hproc, hid, hcmd, htrack, hlen,
      getparsedinfo_hash64_string, Int.toNat_ofNat, readSpan_zero_of_le _ _ hle]
    simp
  · rw [setQueryId_get]
    split_ifs with h0
    · decide
    · exact h0

/-- The utility branch on `CHECKPOINT` alone, tracking enabled. -/
theorem pgqi_post_parse_analyze_utility_witness :
    ∃ span b1,
      utility_hashed_span (exampleHost true) ⟨ascii "CHECKPOINT"⟩
        (chained_post_parse_analyze (exampleBackend (some 1) [0, 7] [5, 6] true)
          ⟨ascii "CHECKPOINT"⟩ ⟨0, CmdType.CMD_UTILITY, 0, 0⟩) = .ok span ∧
      pgqi_post_parse_analyze (exampleHost true) (exampleBackend (some 1) [0, 7] [5, 6] true)
        ⟨ascii "CHECKPOINT"⟩ ⟨0, CmdType.CMD_UTILITY, 0, 0⟩ = .ok b1 ∧
      b1.QueryIdArray 1
        = (if (exampleHost true).hash_any_extended span 0 = 0 then 2
            else (exampleHost true).hash_any_extended span 0) ∧
      b1.QueryIdArray 1 ≠ 0 :=
  pgqi_post_parse_analyze_utility (exampleHost true)
    (exampleBackend (some 1) [0, 7] [5, 6] true) ⟨ascii "CHECKPOINT"⟩
    ⟨0, CmdType.CMD_UTILITY, 0, 0⟩ 1 rfl rfl rfl rfl (by decide)

/-- C3, at a tracked utility statement with two leading blanks. For the text
`"  CHECKPOINT"` (location 0, length 0, which agree with the text) the resolved
span, the trimmed slice, is `"CHECKPOINT"`, and its hash under the example
hash is not 0, so the claim has entry 0 hold that hash. The hook hashes the
first 10 bytes of the text, `"  CHECKPOI"`, and entry 0 holds the hash of
those. What the claim says of the sentinel does hold: the entry is not 0. -/
theorem utility_hashed_span_checkpoint_example :
    ∀ a : Bool,
      stmt_in_text ⟨ascii "  CHECKPOINT"⟩ ⟨0, CmdType.CMD_UTILITY, 0, 0⟩ ∧
      lexer_trim lexer_isspace (stmt_slice (ascii "  CHECKPOINT") 0 0) = ascii "CHECKPOINT" ∧
      get_ql_for_utility (exampleHost a) (ascii "  CHECKPOINT") 0 0 = .ok 10 ∧
      utility_hashed_span (exampleHost a) ⟨ascii "  CHECKPOINT"⟩
          ⟨0, CmdType.CMD_UTILITY, 0, 0⟩
        = .ok (ascii "  CHECKPOI") ∧
      (exampleHost a).hash_any_extended (ascii "CHECKPOINT") 0 ≠ 0 ∧
      entry_after_post_parse (exampleHost a) (exampleBackend (some 0) [7] [0] true)
          ⟨ascii "  CHECKPOINT"⟩ ⟨0, CmdType.CMD_UTILITY, 0, 0⟩ 0
        = .ok ((exampleHost a).hash_any_extended (ascii "  CHECKPOI") 0) ∧
      entry_after_post_parse (exampleHost a) (exampleBackend (some 0) [7] [0] true)
          ⟨ascii "  CHECKPOINT"⟩ ⟨0, CmdType.CMD_UTILITY, 0, 0⟩ 0
        ≠ .ok ((exampleHost a).hash_any_extended (ascii "CHECKPOINT") 0) ∧
      entry_after_post_parse (exampleHost a) (exampleBackend (some 0) [7] [0] true)
          ⟨ascii "  CHECKPOINT"⟩ ⟨0, CmdType.CMD_UTILITY, 0, 0⟩ 0
        ≠ .ok 0 := by
  intro a
  cases a <;> decide

/-- C4. Hook A, explicit reset: in a registered process with own slot `i`, when the
statement's queryId is 0 and its command type is not utility or
`track_utility` is off, `pgqi_post_parse_analyze` returns and entry `i` is 0
afterwards, whatever it held before. -/
theorem pgqi_post_parse_analyze_reset (h : Host) (b : Backend) (pstate : ParseState)
    (query : Query) (i : Nat) (hproc : b.MyProc = some i)
    (hid : (chained_post_parse_analyze b pstate query).queryId = 0)
    (hno : (chained_post_parse_analyze b pstate query).commandType ≠ CmdType.CMD_UTILITY ∨
      b.pgqi_track_utility = false) :
    ∃ b1, pgqi_post_parse_analyze h b pstate query = .ok b1 ∧ b1.QueryIdArray i = 0 := by
  refine ⟨setQueryId b i 0, ?_, by simp⟩
  have hcond : ¬ ((chained_post_parse_analyze b pstate query).commandType = CmdType.CMD_UTILITY ∧
      b.pgqi_track_utility = true) := by
    rintro ⟨h1, h2⟩
    rcases hno with h3 | h3
    · exact h3 h1
    · rw [h3] at h2
      exact Bool.false_ne_true h2
  simp only [pgqi_post_parse_analyze, hproc, hid, ne_eq, not_true_eq_false, if_false, hcond]

/-- Witness for C4: entry 1 holds the stale value 6; a utility statement arrives
with tracking disabled. -/
theorem pgqi_post_parse_analyze_reset_witness :
    (exampleBackend (some 1) [0, 7] [5, 6] false).QueryIdArray 1 = 6 ∧
    ∃ b1, pgqi_post_parse_analyze (exampleHost true)
        (exampleBackend (some 1) [0, 7] [5, 6] false) ⟨ascii "CHECKPOINT"⟩
        ⟨0, CmdType.CMD_UTILITY, 0, 0⟩ = .ok b1 ∧
      b1.QueryIdArray 1 = 0 :=
  ⟨rfl, pgqi_post_parse_analyze_reset (exampleHost true)
    (exampleBackend (some 1) [0, 7] [5, 6] false) ⟨ascii "CHECKPOINT"⟩
    ⟨0, CmdType.CMD_UTILITY, 0, 0⟩ 1 rfl rfl (Or.inr rfl)⟩

/-- C5. Hook B is authoritative: in a registered process with own slot `i`, after
`pgqi_ExecutorStart` entry `i` equals the plan's queryId (0 included), and this
also holds when the hook runs on the state `pgqi_post_parse_analyze` has just
produced, whatever value that hook wrote. -/
theorem pgqi_ExecutorStart_authoritative (h : Host) (b : Backend) (queryDesc : QueryDesc)
    (eflags : Int) (i : Nat) (hproc : b.MyProc = some i) :
    (pgqi_ExecutorStart h b queryDesc eflags).QueryIdArray i
        = (chained_ExecutorStart h b queryDesc eflags).plannedstmt.queryId ∧
    ∀ (pstate : ParseState) (query : Query) (b1 : Backend),
      pgqi_post_parse_analyze h b pstate query = .ok b1 →
      (pgqi_ExecutorStart h b1 queryDesc eflags).QueryIdArray i
        = (chained_ExecutorStart h b queryDesc eflags).plannedstmt.queryId := by
  refine ⟨by simp [pgqi_ExecutorStart_eq h b queryDesc eflags i hproc], ?_⟩
  intro pstate query b1 hrun
  have hshape : ∃ v, b1 = setQueryId b i v := by
    simp only [pgqi_post_parse_analyze, hproc] at hrun
    split_ifs at hrun
    · exact ⟨_, (Except.ok.inj hrun).symm⟩
    · split at hrun
      · exact absurd hrun (by simp)
      · split at hrun
        · exact absurd hrun (by simp)
        · exact ⟨_, (Except.ok.inj hrun).symm⟩
    · exact ⟨_, (Except.ok.inj hrun).symm⟩
  obtain ⟨v, rfl⟩ := hshape
  rw [pgqi_ExecutorStart_eq h (setQueryId b i v) queryDesc eflags i (by simpa using hproc)]
  simp [chained_ExecutorStart]

/-- Witness for C5: Hook A has written 12345, the plan carries 0. -/
theorem pgqi_ExecutorStart_authoritative_witness :
    (pgqi_ExecutorStart (exampleHost true)
        (exampleBackend (some 1) [0, 7] [5, 12345] true) ⟨⟨0⟩⟩ 0).QueryIdArray 1 = 0 :=
  (pgqi_ExecutorStart_authoritative (exampleHost true)
    (exampleBackend (some 1) [0, 7] [5, 12345] true) ⟨⟨0⟩⟩ 0 1 rfl).1

/-- C6. Lookup reference definition: `pg_get_queryid(pid)` is the registry value
at the least index below `allProcCount` whose slot is live (pid non-zero) and
has the given pid, and 0 when there is no such index; with two live slots of
the same pid the lower index is the one read. -/
theorem pg_get_queryid_least_index (b : Backend) (pid : Int) :
    pg_get_queryid b pid
      = if hex : ∃ i, i < b.ProcGlobal.allProcCount ∧ slot_matches b pid i
        then b.QueryIdArray (Nat.find hex) else 0 := by
  split_ifs with hex
  · obtain ⟨hlt, hm⟩ := Nat.find_spec hex
    refine pg_get_queryid_loop_first b pid b.ProcGlobal.allProcCount 0 (Nat.find hex)
      (Nat.zero_le _) (by omega) hm ?_
    intro j _ hj hmj
    exact Nat.find_min hex hj ⟨by omega, hmj⟩
  · refine pg_get_queryid_loop_none b pid b.ProcGlobal.allProcCount 0 ?_
    intro j _ hj hmj
    exact hex ⟨j, by omega, hmj⟩

/-- Two live slots with pid 7: the lookup reads the lower one; an absent pid and
the pid 0 of a free slot give 0. -/
theorem pg_get_queryid_shared_pid_example :
    pg_get_queryid (exampleBackend none [0, 7, 7] [1, 2, 3] true) 7 = 2 ∧
    pg_get_queryid (exampleBackend none [0, 7, 7] [1, 2, 3] true) 9 = 0 ∧
    pg_get_queryid (exampleBackend none [0, 7, 7] [1, 2, 3] true) 0 = 0 := by
  decide

/-! ## The span handed to the hasher -/

/-- C7, at the inputs the claim names. For the text `"  SELECT 1  "`, with
location 0 and length 0 and with location 2 and length 8, the trimmed slice is
`"SELECT 1"`, `get_ql_for_utility` returns its length 8, but the span handed
to the hasher is the first 8 bytes of the text, `"  SELECT"`: the pointer
advanced inside `get_ql_for_utility` is a local of that function. Under the
example hash the identifier recorded is that of `"  SELECT"`. -/
theorem utility_hashed_span_select_example :
    ∀ a : Bool,
      lexer_trim lexer_isspace (stmt_slice (ascii "  SELECT 1  ") 0 0) = ascii "SELECT 1" ∧
      lexer_trim lexer_isspace (stmt_slice (ascii "  SELECT 1  ") 8 2) = ascii "SELECT 1" ∧
      get_ql_for_utility (exampleHost a) (ascii "  SELECT 1  ") 0 0 = .ok 8 ∧
      get_ql_for_utility (exampleHost a) (ascii "  SELECT 1  ") 8 2 = .ok 8 ∧
      utility_hashed_span (exampleHost a) ⟨ascii "  SELECT 1  "⟩ ⟨0, CmdType.CMD_UTILITY, 0, 0⟩
        = .ok (ascii "  SELECT") ∧
      utility_hashed_span (exampleHost a) ⟨ascii "  SELECT 1  "⟩ ⟨0, CmdType.CMD_UTILITY, 2, 8⟩
        = .ok (ascii "  SELECT") ∧
      ascii "  SELECT" ≠ ascii "SELECT 1" ∧
      entry_after_post_parse (exampleHost a) (exampleBackend (some 0) [7] [0] true)
          ⟨ascii "  SELECT 1  "⟩ ⟨0, CmdType.CMD_UTILITY, 0, 0⟩ 0
        = .ok ((exampleHost a).hash_any_extended (ascii "  SELECT") 0) ∧
      (exampleHost a).hash_any_extended (ascii "  SELECT") 0
        ≠ (exampleHost a).hash_any_extended (ascii "SELECT 1") 0 := by
  intro a
  cases a <;> decide

/-- C8 as stated fails. On the text `"ab"`: a location 5 past the end trips the
assertion, and in a build without assertions makes `strlen` read outside the
string; a length 3 past the end trips the assertion, and in a build without
assertions is returned as it is, a span that does not lie inside the text. -/
theorem get_ql_for_utility_no_clamping :
    get_ql_for_utility (exampleHost true) (ascii "ab") 0 5 = .error Fault.assertionFailed ∧
    get_ql_for_utility (exampleHost false) (ascii "ab") 0 5 = .error Fault.outOfBounds ∧
    get_ql_for_utility (exampleHost true) (ascii "ab") 3 0 = .error Fault.assertionFailed ∧
    get_ql_for_utility (exampleHost false) (ascii "ab") 3 0 = .ok 3 ∧
    (∀ a : Bool, ¬ returns_span_inside (exampleHost a) (ascii "ab") 0 5) ∧
    (∀ a : Bool, ¬ returns_span_inside (exampleHost a) (ascii "ab") 3 0) := by
  refine ⟨by decide, by decide, by decide, by decide, ?_, ?_⟩
  · intro a
    rintro ⟨s, L, -, hL, -⟩
    cases a
    · have hrun : get_ql_for_utility (exampleHost false) (ascii "ab") 0 5
          = .error Fault.outOfBounds := by decide
      rw [hrun] at hL
      cases hL
    · have hrun : get_ql_for_utility (exampleHost true) (ascii "ab") 0 5
          = .error Fault.assertionFailed := by decide
      rw [hrun] at hL
      cases hL
  · intro a
    rintro ⟨s, L, hs, hL, -, -, hin⟩
    cases a
    · have hrun : get_ql_for_utility_locals (exampleHost false) (ascii "ab") 3 0
          = .ok ⟨0, 0, 3⟩ := by decide
      have hrun2 : get_ql_for_utility (exampleHost false) (ascii "ab") 3 0 = .ok 3 := by decide
      rw [hrun] at hs
      rw [hrun2] at hL
      cases hs
      cases hL
      simp [ascii] at hin
    · have hrun : get_ql_for_utility (exampleHost true) (ascii "ab") 3 0
          = .error Fault.assertionFailed := by decide
      rw [hrun] at hL
      cases hL

/-- C8, amended. For a text shorter than 2^31 bytes and a location and length
that agree with it (location negative, or `0 ≤ location ≤ length of the text`
and `length ≤` what remains after the location), `get_ql_for_utility` returns,
without a fault (so without a read outside the string), a length `L ≥ 0` with
effective start `+ L ≤` length of the text. -/
theorem get_ql_for_utility_span_inside (h : Host) (text : List Nat) (len loc : Int)
    (hlen : text.length < 2 ^ 31) (hspan : span_in_text text len loc) :
    returns_span_inside h text len loc := by
  obtain ⟨c, m, hb, hrun, _⟩ := get_ql_for_utility_locals_spec h text len loc hlen hspan
  refine ⟨_, (m : Int), hrun, by simp [get_ql_for_utility, hrun], rfl, by omega, ?_⟩
  simp only
  omega

/-- Witness for the amended C8: the second statement of `"BEGIN; COMMIT"`. -/
theorem get_ql_for_utility_span_inside_witness :
    returns_span_inside (exampleHost true) (ascii "BEGIN; COMMIT") 0 6 :=
  get_ql_for_utility_span_inside (exampleHost true) (ascii "BEGIN; COMMIT") 0 6
    (by decide) (by decide)

/-- C9, at three invocations on the same statement. `COMMIT` alone, `COMMIT`
after two blanks, and `COMMIT` as the second statement of `"BEGIN; COMMIT"`
have the same trimmed slice, and `get_ql_for_utility` returns 6 for each, but
the spans handed to the hasher are `"COMMIT"`, `"  COMM"` and `"BEGIN;"`, and
the identifiers recorded under the example hash are pairwise different. -/
theorem utility_hashed_span_commit_example :
    ∀ a : Bool,
      lexer_trim lexer_isspace (stmt_slice (ascii "COMMIT") 0 0) = ascii "COMMIT" ∧
      lexer_trim lexer_isspace (stmt_slice (ascii "  COMMIT") 0 0) = ascii "COMMIT" ∧
      lexer_trim lexer_isspace (stmt_slice (ascii "BEGIN; COMMIT") 0 6) = ascii "COMMIT" ∧
      utility_hashed_span (exampleHost a) ⟨ascii "COMMIT"⟩ ⟨0, CmdType.CMD_UTILITY, 0, 0⟩
        = .ok (ascii "COMMIT") ∧
      utility_hashed_span (exampleHost a) ⟨ascii "  COMMIT"⟩ ⟨0, CmdType.CMD_UTILITY, 0, 0⟩
        = .ok (ascii "  COMM") ∧
      utility_hashed_span (exampleHost a) ⟨ascii "BEGIN; COMMIT"⟩ ⟨0, CmdType.CMD_UTILITY, 6, 0⟩
        = .ok (ascii "BEGIN;") ∧
      entry_after_post_parse (exampleHost a) (exampleBackend (some 0) [7] [0] true)
          ⟨ascii "COMMIT"⟩ ⟨0, CmdType.CMD_UTILITY, 0, 0⟩ 0
        ≠ entry_after_post_parse (exampleHost a) (exampleBackend (some 0) [7] [0] true)
          ⟨ascii "  COMMIT"⟩ ⟨0, CmdType.CMD_UTILITY, 0, 0⟩ 0 ∧
      entry_after_post_parse (exampleHost a) (exampleBackend (some 0) [7] [0] true)
          ⟨ascii "COMMIT"⟩ ⟨0, CmdType.CMD_UTILITY, 0, 0⟩ 0
        ≠ entry_after_post_parse (exampleHost a) (exampleBackend (some 0) [7] [0] true)
          ⟨ascii "BEGIN; COMMIT"⟩ ⟨0, CmdType.CMD_UTILITY, 6, 0⟩ 0 := by
  intro a
  cases a <;> decide

/-! ## Two statements in one slot -/

/-- C10. No residual leakage: in a registered process with own slot `i`, run
`pgqi_post_parse_analyze` then `pgqi_ExecutorStart` for a first statement and
again for a second one (the location and length of each agreeing with its
text). All four hooks return, and entry `i` then equals the queryId of the
second statement's plan, for every first statement and every initial registry. -/
theorem no_residual_leakage (h : Host) (b : Backend) (i : Nat)
    (pstate1 : ParseState) (query1 : Query) (queryDesc1 : QueryDesc) (eflags1 : Int)
    (pstate2 : ParseState) (query2 : Query) (queryDesc2 : QueryDesc) (eflags2 : Int)
    (hproc : b.MyProc = some i)
    (hq1 : stmt_in_text pstate1 (chained_post_parse_analyze b pstate1 query1))
    (hq2 : stmt_in_text pstate2 (chained_post_parse_analyze b pstate2 query2)) :
    ∃ b1 b2,
      pgqi_post_parse_analyze h b pstate1 query1 = .ok b1 ∧
      pgqi_post_parse_analyze h (pgqi_ExecutorStart h b1 queryDesc1 eflags1) pstate2 query2
        = .ok b2 ∧
      (pgqi_ExecutorStart h b2 queryDesc2 eflags2).QueryIdArray i
        = (chained_ExecutorStart h b queryDesc2 eflags2).plannedstmt.queryId := by
  obtain ⟨v1, hA1⟩ := pgqi_post_parse_analyze_returns h b pstate1 query1 i hproc hq1
  have hB1 := pgqi_ExecutorStart_eq h (setQueryId b i v1) queryDesc1 eflags1 i
    (by simpa using hproc)
  obtain ⟨v2, hA2⟩ := pgqi_post_parse_analyze_returns h
    (pgqi_ExecutorStart h (setQueryId b i v1) queryDesc1 eflags1) pstate2 query2 i
    (by rw [hB1]; simpa using hproc)
    (by rw [hB1]; simpa [chained_post_parse_analyze] using hq2)
  refine ⟨_, _, hA1, hA2, ?_⟩
  rw [pgqi_ExecutorStart_eq h _ queryDesc2 eflags2 i (by rw [hB1]; simpa using hproc), hB1]
  simp [chained_ExecutorStart]

/-- Witness for C10: entry 1 starts at 6; first `CHECKPOINT` (utility, plan without
identifier), then a SELECT whose plan carries 777. -/
theorem no_residual_leakage_witness :
    ∃ b1 b2,
      pgqi_post_parse_analyze (exampleHost true) (exampleBackend (some 1) [0, 7] [5, 6] true)
        ⟨ascii "CHECKPOINT"⟩ ⟨0, CmdType.CMD_UTILITY, 0, 0⟩ = .ok b1 ∧
      pgqi_post_parse_analyze (exampleHost true)
        (pgqi_ExecutorStart (exampleHost true) b1 ⟨⟨0⟩⟩ 0) ⟨ascii "SELECT 1"⟩
        ⟨777, CmdType.CMD_SELECT, 0, 0⟩ = .ok b2 ∧
      (pgqi_ExecutorStart (exampleHost true) b2 ⟨⟨777⟩⟩ 0).QueryIdArray 1 = 777 :=
  no_residual_leakage (exampleHost true) (exampleBackend (some 1) [0, 7] [5, 6] true) 1
    ⟨ascii "CHECKPOINT"⟩ ⟨0, CmdType.CMD_UTILITY, 0, 0⟩ ⟨⟨0⟩⟩ 0
    ⟨ascii "SELECT 1"⟩ ⟨777, CmdType.CMD_SELECT, 0, 0⟩ ⟨⟨777⟩⟩ 0 rfl (by decide) (by decide)

/-! ## Auxiliary lemmas on frames, indices and sizes -/

theorem setQueryId_other (b : Backend) (i v j : Nat) (hj : j ≠ i) :
    (setQueryId b i v).QueryIdArray j = b.QueryIdArray j := by
  simp [setQueryId, Function.update_noteq hj]

/-- Whenever Hook A returns in a registered process, what it has done is one
write to the own entry. -/
theorem pgqi_post_parse_analyze_shape (h : Host) (b : Backend) (pstate : ParseState)
    (query : Query) (i : Nat) (b1 : Backend) (hproc : b.MyProc = some i)
    (hrun : pgqi_post_parse_analyze h b pstate query = .ok b1) :
    ∃ v, b1 = setQueryId b i v := by
  simp only [pgqi_post_parse_analyze, hproc] at hrun
  split_ifs at hrun
  · exact ⟨_, (Except.ok.inj hrun).symm⟩
  · split at hrun
    · exact absurd hrun (by simp)
    · split at hrun
      · exact absurd hrun (by simp)
      · exact ⟨_, (Except.ok.inj hrun).symm⟩
  · exact ⟨_, (Except.ok.inj hrun).symm⟩

theorem pgqi_post_parse_analyze_unregistered (h : Host) (b : Backend) (pstate : ParseState)
    (query : Query) (hproc : b.MyProc = none) :
    pgqi_post_parse_analyze h b pstate query = .ok b := by
  simp [pgqi_post_parse_analyze, hproc]

theorem pgqi_ExecutorStart_unregistered (h : Host) (b : Backend) (queryDesc : QueryDesc)
    (eflags : Int) (hproc : b.MyProc = none) :
    pgqi_ExecutorStart h b queryDesc eflags = b := by
  simp [pgqi_ExecutorStart, hproc]

theorem pg_get_queryid_loop_eq_index (b : Backend) (pid : Int) :
    ∀ (fuel start : Nat),
      pg_get_queryid_loop b pid fuel start
        = match pg_get_queryid_loop_index b pid fuel start with
          | some i => b.QueryIdArray i
          | none => 0 := by
  intro fuel
  induction fuel with
  | zero => intro start; rfl
  | succ fuel ih =>
    intro start
    simp only [pg_get_queryid_loop, pg_get_queryid_loop_index]
    split_ifs
    · rfl
    · exact ih (start + 1)

theorem pg_get_queryid_loop_index_lt (b : Backend) (pid : Int) :
    ∀ (fuel start i : Nat), pg_get_queryid_loop_index b pid fuel start = some i →
      start ≤ i ∧ i < start + fuel := by
  intro fuel
  induction fuel with
  | zero => intro start i hrun; simp [pg_get_queryid_loop_index] at hrun
  | succ fuel ih =>
    intro start i hrun
    simp only [pg_get_queryid_loop_index] at hrun
    split_ifs at hrun
    · have : start = i := Option.some.inj hrun
      omega
    · have := ih (start + 1) i hrun
      omega

theorem wrapInt32_of_range (x : Int) (hlo : -(2 ^ 31) ≤ x) (hhi : x < 2 ^ 31) :
    wrapInt32 x = x := by
  unfold wrapInt32
  omega

theorem toSize_of_nat (n : Nat) (hn : n < 2 ^ 64) : toSize (n : Int) = n := by
  unfold toSize
  have h1 : (n : Int) < 2 ^ 64 := by exact_mod_cast hn
  have h2 : (n : Int) % 2 ^ 64 = (n : Int) := Int.emod_eq_of_lt (by omega) h1
  rw [h2, Int.toNat_ofNat]

theorem get_max_procs_count_eq (c : HostConfig) (hc : c.inRange) :
    get_max_procs_count c = c.MaxBackends + c.NUM_AUXILIARY_PROCS + c.max_prepared_xacts := by
  obtain ⟨h1, h2, h3, h4⟩ := hc
  simp only [get_max_procs_count, zero_add]
  rw [wrapInt32_of_range c.MaxBackends (by omega) (by omega),
    wrapInt32_of_range (c.MaxBackends + c.NUM_AUXILIARY_PROCS) (by omega) (by omega),
    wrapInt32_of_range _ (by omega) (by omega)]

theorem pgqi_shmem_size_of_capacity (c : HostConfig) (capacity : Nat)
    (hcap : get_max_procs_count c = (capacity : Int)) (hsize : 8 * capacity < 2 ^ 31) :
    pgqi_shmem_size c = .ok ((8 * capacity : Nat) : Int) := by
  have h0 : capacity < 2 ^ 64 := by omega
  have h1 : toSize (capacity : Int) = capacity := toSize_of_nat capacity h0
  have h2 : 8 * capacity < 2 ^ 64 := by omega
  unfold pgqi_shmem_size
  rw [hcap, h1]
  unfold mul_size
  rw [if_pos h2]
  simp only [toInt32_of_lt _ hsize]

theorem lexer_trim_eq_nil_iff (sp : Nat → Bool) (l : List Nat) :
    lexer_trim sp l = [] ↔ ∀ c ∈ l, sp c = true := by
  unfold lexer_trim
  constructor
  · intro hnil
    have hall : ∀ c ∈ l.dropWhile sp, sp c = true := List.rdropWhile_eq_nil_iff.mp hnil
    have hdrop : l.dropWhile sp = [] := by
      cases hd : l.dropWhile sp with
      | nil => rfl
      | cons x rest =>
        have hx : sp x = true := hall x (by rw [hd]; exact List.mem_cons_self _ _)
        have hne : l.dropWhile sp ≠ [] := by rw [hd]; simp
        have hhead := List.head_dropWhile_not sp l hne
        simp only [hd, List.head_cons] at hhead
        rw [hx] at hhead
        exact absurd hhead (by simp)
    exact List.dropWhile_eq_nil_iff.mp hdrop
  · intro hall
    have hdrop : l.dropWhile sp = [] := List.dropWhile_eq_nil_iff.mpr hall
    rw [hdrop]
    rfl

theorem _PG_init_outside_preload (s : Loader)
    (hpre : s.process_shared_preload_libraries_in_progress = false) : _PG_init s = s := by
  simp [_PG_init, hpre]

theorem pgqi_shmem_startup_fresh (c : HostConfig) (uninit : Nat → Nat) (s : Shmem)
    (capacity : Nat) (hcap : get_max_procs_count c = (capacity : Int))
    (hsize : 8 * capacity < 2 ^ 31) (hnone : s.region = none) (hfree : 8 * capacity ≤ s.free) :
    pgqi_shmem_startup c uninit s
      = .ok ⟨some (List.replicate capacity 0), s.free - 8 * capacity⟩ := by
  have hsz : toSize ((8 * capacity : Nat) : Int) = 8 * capacity :=
    toSize_of_nat (8 * capacity) (by omega)
  have hdiv : 8 * capacity / 8 = capacity := by omega
  unfold pgqi_shmem_startup
  rw [pgqi_shmem_size_of_capacity c capacity hcap hsize]
  simp only [hsz, ShmemInitStruct, hnone, hfree, if_true, hdiv, Bool.not_false, Option.map_some']
  simp [MemSet]

theorem pgqi_shmem_startup_found (c : HostConfig) (uninit : Nat → Nat) (s : Shmem)
    (capacity : Nat) (hcap : get_max_procs_count c = (capacity : Int))
    (hsize : 8 * capacity < 2 ^ 31) (words : List Nat) (hsome : s.region = some words) :
    pgqi_shmem_startup c uninit s
      = if words.length = capacity then .ok s else .error StartupFault.shmemSizeMismatch := by
  have hsz : toSize ((8 * capacity : Nat) : Int) = 8 * capacity :=
    toSize_of_nat (8 * capacity) (by omega)
  unfold pgqi_shmem_startup
  rw [pgqi_shmem_size_of_capacity c capacity hcap hsize]
  simp only [hsz, ShmemInitStruct, hsome]
  by_cases hl : words.length = capacity
  · simp [hl]
  · have : ¬ 8 * words.length = 8 * capacity := by omega
    simp [hl, this]

/-! ## Unregistered processes and other slots -/

/-- C11. Not-yet-registered process: when `MyProc` is null, for every registry,
statement, plan and flag value, `pgqi_post_parse_analyze` returns without a
fault and `pgqi_ExecutorStart` returns, and both leave the state, hence every
registry entry, as it was. -/
theorem hooks_skip_unregistered (h : Host) (b : Backend) (pstate : ParseState) (query : Query)
    (queryDesc : QueryDesc) (eflags : Int) (hproc : b.MyProc = none) :
    pgqi_post_parse_analyze h b pstate query = .ok b ∧
    pgqi_ExecutorStart h b queryDesc eflags = b ∧
    ∀ j, (pgqi_ExecutorStart h b queryDesc eflags).QueryIdArray j = b.QueryIdArray j := by
  have hB := pgqi_ExecutorStart_unregistered h b queryDesc eflags hproc
  exact ⟨pgqi_post_parse_analyze_unregistered h b pstate query hproc, hB, fun j => by rw [hB]⟩

/-- Witness for C11: an unregistered process, a tracked utility statement whose
location lies outside its text, and a plan with queryId 99. -/
theorem hooks_skip_unregistered_witness :
    pgqi_post_parse_analyze (exampleHost true) (exampleBackend none [0, 7] [5, 6] true)
        ⟨ascii "ab"⟩ ⟨0, CmdType.CMD_UTILITY, 5, 0⟩
      = .ok (exampleBackend none [0, 7] [5, 6] true) ∧
    pgqi_ExecutorStart (exampleHost true) (exampleBackend none [0, 7] [5, 6] true) ⟨⟨99⟩⟩ 0
      = exampleBackend none [0, 7] [5, 6] true ∧
    ∀ j, (pgqi_ExecutorStart (exampleHost true) (exampleBackend none [0, 7] [5, 6] true)
        ⟨⟨99⟩⟩ 0).QueryIdArray j = (exampleBackend none [0, 7] [5, 6] true).QueryIdArray j :=
  hooks_skip_unregistered (exampleHost true) (exampleBackend none [0, 7] [5, 6] true)
    ⟨ascii "ab"⟩ ⟨0, CmdType.CMD_UTILITY, 5, 0⟩ ⟨⟨99⟩⟩ 0 rfl

/-- C12. No cross-slot writes: in a registered process with own slot `i`, whenever
`pgqi_post_parse_analyze` returns (which it does for every statement whose
location and length agree with its text) it has left every entry `j ≠ i` as it
was, in each branch; so has `pgqi_ExecutorStart`; and `pg_get_queryid` leaves
the whole registry as it was. -/
theorem no_cross_slot_writes (h : Host) (b : Backend) (i : Nat) (hproc : b.MyProc = some i) :
    (∀ (pstate : ParseState) (query : Query) (b1 : Backend),
      pgqi_post_parse_analyze h b pstate query = .ok b1 →
      ∀ j, j ≠ i → b1.QueryIdArray j = b.QueryIdArray j) ∧
    (∀ (pstate : ParseState) (query : Query),
      stmt_in_text pstate (chained_post_parse_analyze b pstate query) →
      ∃ b1, pgqi_post_parse_analyze h b pstate query = .ok b1 ∧
        ∀ j, j ≠ i → b1.QueryIdArray j = b.QueryIdArray j) ∧
    (∀ (queryDesc : QueryDesc) (eflags : Int) (j : Nat), j ≠ i →
      (pgqi_ExecutorStart h b queryDesc eflags).QueryIdArray j = b.QueryIdArray j) ∧
    (∀ (pid : Int) (j : Nat),
      (pg_get_queryid_call b pid).1.QueryIdArray j = b.QueryIdArray j) := by
  refine ⟨?_, ?_, ?_, ?_⟩
  · intro pstate query b1 hrun j hj
    obtain ⟨v, rfl⟩ := pgqi_post_parse_analyze_shape h b pstate query i b1 hproc hrun
    exact setQueryId_other b i v j hj
  · intro pstate query hq
    obtain ⟨v, hrun⟩ := pgqi_post_parse_analyze_returns h b pstate query i hproc hq
    exact ⟨_, hrun, fun j hj => setQueryId_other b i v j hj⟩
  · intro queryDesc eflags j hj
    rw [pgqi_ExecutorStart_eq h b queryDesc eflags i hproc]
    exact setQueryId_other b i _ j hj
  · intro pid j
    rfl

/-- Witness for C12: the process in slot 1 runs Hook A on `CHECKPOINT`; entry 0
keeps its value 5. -/
theorem no_cross_slot_writes_witness :
    ∃ b1, pgqi_post_parse_analyze (exampleHost true)
        (exampleBackend (some 1) [3, 7] [5, 6] true) ⟨ascii "CHECKPOINT"⟩
        ⟨0, CmdType.CMD_UTILITY, 0, 0⟩ = .ok b1 ∧
      ∀ j, j ≠ 1 → b1.QueryIdArray j
        = (exampleBackend (some 1) [3, 7] [5, 6] true).QueryIdArray j :=
  (no_cross_slot_writes (exampleHost true) (exampleBackend (some 1) [3, 7] [5, 6] true) 1
    rfl).2.1 ⟨ascii "CHECKPOINT"⟩ ⟨0, CmdType.CMD_UTILITY, 0, 0⟩ (by decide)

/-! ## Module load and unload -/

/-- C13. Shutdown restores the hooks: when the library is loaded during the preload
phase, `_PG_init` puts the module's three hook functions in the three hook
points and keeps the values they held in the three saved hooks, and `_PG_fini`
run on the result leaves each hook point with the value it held before
`_PG_init`. -/
theorem _PG_fini_restores_hooks (s : Loader)
    (hpre : s.process_shared_preload_libraries_in_progress = true) :
    ((_PG_init s).shmem_startup_hook = some HookFn.pgqi_shmem_startup ∧
      (_PG_init s).post_parse_analyze_hook = some HookFn.pgqi_post_parse_analyze ∧
      (_PG_init s).ExecutorStart_hook = some HookFn.pgqi_ExecutorStart) ∧
    ((_PG_init s).pgqi_prev_shmem_startup_hook = s.shmem_startup_hook ∧
      (_PG_init s).prev_post_parse_analyze_hook = s.post_parse_analyze_hook ∧
      (_PG_init s).prev_ExecutorStart = s.ExecutorStart_hook) ∧
    ((_PG_fini (_PG_init s)).shmem_startup_hook = s.shmem_startup_hook ∧
      (_PG_fini (_PG_init s)).post_parse_analyze_hook = s.post_parse_analyze_hook ∧
      (_PG_fini (_PG_init s)).ExecutorStart_hook = s.ExecutorStart_hook) := by
  simp [_PG_init, _PG_fini, hpre, DefineCustomBoolVariable]

/-- Witness for C13: another extension holds the post-parse hook point, the other
two are empty. -/
theorem _PG_fini_restores_hooks_witness :
    (_PG_fini (_PG_init (libraryLoaded true none (some (HookFn.foreign 2)) none
        none))).post_parse_analyze_hook = some (HookFn.foreign 2) :=
  (_PG_fini_restores_hooks (libraryLoaded true none (some (HookFn.foreign 2)) none none)
    rfl).2.2.2.1

/-- C14, at a load outside the preload phase with the three hook points held by
other extensions. `_PG_init` leaves the state as it was, but `_PG_fini` then
stores the saved hooks, which still hold their initial `NULL`, in the three
hook points: the other extensions lose their hooks. -/
theorem _PG_fini_outside_preload_example :
    _PG_init (libraryLoaded false (some (HookFn.foreign 1)) (some (HookFn.foreign 2))
        (some (HookFn.foreign 3)) none)
      = libraryLoaded false (some (HookFn.foreign 1)) (some (HookFn.foreign 2))
        (some (HookFn.foreign 3)) none ∧
    (_PG_fini (_PG_init (libraryLoaded false (some (HookFn.foreign 1))
        (some (HookFn.foreign 2)) (some (HookFn.foreign 3)) none))).shmem_startup_hook = none ∧
    (_PG_fini (_PG_init (libraryLoaded false (some (HookFn.foreign 1))
        (some (HookFn.foreign 2)) (some (HookFn.foreign 3)) none))).post_parse_analyze_hook
      = none ∧
    (_PG_fini (_PG_init (libraryLoaded false (some (HookFn.foreign 1))
        (some (HookFn.foreign 2)) (some (HookFn.foreign 3)) none))).ExecutorStart_hook = none ∧
    (_PG_fini (_PG_init (libraryLoaded false (some (HookFn.foreign 1))
        (some (HookFn.foreign 2)) (some (HookFn.foreign 3)) none))).post_parse_analyze_hook
      ≠ (libraryLoaded false (some (HookFn.foreign 1)) (some (HookFn.foreign 2))
        (some (HookFn.foreign 3)) none).post_parse_analyze_hook := by
  decide

/-! ## Shared-memory startup and capacity -/

/-- C15. Registry initialisation: with `capacity` the value of
`get_max_procs_count` (its size in bytes fitting an `int`), when the region
does not exist yet and the host has the space, `pgqi_shmem_startup` returns a
registry of `capacity` entries, all 0; when the region exists with that
capacity, it returns and leaves every entry as it was; whenever it returns,
the registry has exactly `capacity` entries and a further call changes
nothing. -/
theorem pgqi_shmem_startup_registry (c : HostConfig) (uninit : Nat → Nat) (s : Shmem)
    (capacity : Nat) (hcap : get_max_procs_count c = (capacity : Int))
    (hsize : 8 * capacity < 2 ^ 31) :
    (s.region = none → 8 * capacity ≤ s.free →
      ∃ s1, pgqi_shmem_startup c uninit s = .ok s1 ∧
        s1.QueryIdArray.length = capacity ∧ ∀ w ∈ s1.QueryIdArray, w = 0) ∧
    (∀ words, s.region = some words → words.length = capacity →
      pgqi_shmem_startup c uninit s = .ok s ∧ s.QueryIdArray = words) ∧
    (∀ s1, pgqi_shmem_startup c uninit s = .ok s1 →
      s1.QueryIdArray.length = capacity ∧ pgqi_shmem_startup c uninit s1 = .ok s1) := by
  refine ⟨?_, ?_, ?_⟩
  · intro hnone hfree
    refine ⟨_, pgqi_shmem_startup_fresh c uninit s capacity hcap hsize hnone hfree, ?_, ?_⟩
    · simp [Shmem.QueryIdArray]
    · intro w hw
      simp only [Shmem.QueryIdArray, Option.getD_some] at hw
      exact (List.mem_replicate.mp hw).2
  · intro words hsome hlen
    refine ⟨?_, by simp [Shmem.QueryIdArray, hsome]⟩
    rw [pgqi_shmem_startup_found c uninit s capacity hcap hsize words hsome, if_pos hlen]
  · intro s1 hrun
    cases hreg : s.region with
    | none =>
      by_cases hfree : 8 * capacity ≤ s.free
      · rw [pgqi_shmem_startup_fresh c uninit s capacity hcap hsize hreg hfree] at hrun
        have hs1 : s1 = ⟨some (List.replicate capacity 0), s.free - 8 * capacity⟩ :=
          (Except.ok.inj hrun).symm
        subst hs1
        refine ⟨by simp [Shmem.QueryIdArray], ?_⟩
        rw [pgqi_shmem_startup_found c uninit _ capacity hcap hsize
          (List.replicate capacity 0) rfl]
        simp
      · exfalso
        have hsz : toSize ((8 * capacity : Nat) : Int) = 8 * capacity :=
          toSize_of_nat (8 * capacity) (by omega)
        unfold pgqi_shmem_startup at hrun
        rw [pgqi_shmem_size_of_capacity c capacity hcap hsize] at hrun
        simp only [hsz, ShmemInitStruct, hreg, hfree, if_false] at hrun
        cases hrun
    | some words =>
      rw [pgqi_shmem_startup_found c uninit s capacity hcap hsize words hreg] at hrun
      split_ifs at hrun with hlen
      have hs1 : s1 = s := (Except.ok.inj hrun).symm
      subst hs1
      refine ⟨by simp [Shmem.QueryIdArray, hreg, hlen], ?_⟩
      rw [pgqi_shmem_startup_found c uninit s1 capacity hcap hsize words hreg, if_pos hlen]

/-- Witness for C15: three slots; a first startup on an empty shared memory, and a
startup that finds the region holding recorded identifiers. -/
theorem pgqi_shmem_startup_registry_witness :
    (∃ s1, pgqi_shmem_startup ⟨2, 1, 0⟩ (fun i => i + 5) ⟨none, 100⟩ = .ok s1 ∧
      s1.QueryIdArray.length = 3 ∧ ∀ w ∈ s1.QueryIdArray, w = 0) ∧
    (pgqi_shmem_startup ⟨2, 1, 0⟩ (fun i => i + 5) ⟨some [7, 8, 9], 76⟩
        = .ok ⟨some [7, 8, 9], 76⟩ ∧
      (⟨some [7, 8, 9], 76⟩ : Shmem).QueryIdArray = [7, 8, 9]) :=
  ⟨(pgqi_shmem_startup_registry ⟨2, 1, 0⟩ (fun i => i + 5) ⟨none, 100⟩ 3
      (by decide) (by decide)).1 rfl (by decide),
    (pgqi_shmem_startup_registry ⟨2, 1, 0⟩ (fun i => i + 5) ⟨some [7, 8, 9], 76⟩ 3
      (by decide) (by decide)).2.1 [7, 8, 9] rfl rfl⟩

/-- C16. Capacity formula: for host values within the host's limits,
`get_max_procs_count` is `MaxBackends + NUM_AUXILIARY_PROCS +
max_prepared_xacts`, the size `pgqi_shmem_startup` asks for is 8 times that,
and two configurations with the same three values give the same capacity. -/
theorem get_max_procs_count_formula (c : HostConfig) (hc : c.inRange) :
    get_max_procs_count c = c.MaxBackends + c.NUM_AUXILIARY_PROCS + c.max_prepared_xacts ∧
    pgqi_shmem_size c
      = .ok (8 * (c.MaxBackends + c.NUM_AUXILIARY_PROCS + c.max_prepared_xacts)) ∧
    ∀ c1 : HostConfig, c1.MaxBackends = c.MaxBackends →
      c1.NUM_AUXILIARY_PROCS = c.NUM_AUXILIARY_PROCS →
      c1.max_prepared_xacts = c.max_prepared_xacts →
      get_max_procs_count c1 = get_max_procs_count c := by
  have hsum := get_max_procs_count_eq c hc
  obtain ⟨h1, h2, h3, h4⟩ := hc
  refine ⟨hsum, ?_, ?_⟩
  · have hnn : 0 ≤ c.MaxBackends + c.NUM_AUXILIARY_PROCS + c.max_prepared_xacts := by omega
    obtain ⟨n, hn⟩ := Int.eq_ofNat_of_zero_le hnn
    have hsize : 8 * n < 2 ^ 31 := by
      have : (8 : Int) * (n : Int) < 2 ^ 31 := by rw [← hn]; exact h4
      exact_mod_cast this
    rw [pgqi_shmem_size_of_capacity c n (by rw [hsum, hn]) hsize, hn]
    simp
  · intro c1 e1 e2 e3
    cases c
    cases c1
    simp only at e1 e2 e3
    subst e1 e2 e3
    rfl

/-- Witness for C16: 100 backends, 4 auxiliary processes, 10 prepared
transactions. -/
theorem get_max_procs_count_formula_witness :
    get_max_procs_count ⟨100, 4, 10⟩ = 100 + 4 + 10 ∧
    pgqi_shmem_size ⟨100, 4, 10⟩ = .ok (8 * (100 + 4 + 10)) :=
  ⟨(get_max_procs_count_formula ⟨100, 4, 10⟩ (by decide)).1,
    (get_max_procs_count_formula ⟨100, 4, 10⟩ (by decide)).2.1⟩

/-! ## The length the trimmer returns -/

/-- C17. Length returned by the trimmer: for a text (shorter than 2^31 bytes) and a
location and length that agree with it, `get_ql_for_utility` returns the length
of the trimmed slice, a natural number, where the slice is the whole text for
a negative location whatever the length, the rest of the text from the
location for a length `≤ 0`, and the `length` bytes from the location
otherwise; the result is 0 exactly when every byte of the slice is
whitespace (in particular when the slice is empty). -/
theorem get_ql_for_utility_length (h : Host) (text : List Nat) (len loc : Int)
    (hlen : text.length < 2 ^ 31) (hspan : span_in_text text len loc) :
    ∃ L : Nat,
      get_ql_for_utility h text len loc = .ok (L : Int) ∧
      L = (lexer_trim h.scanner_isspace (stmt_slice text len loc)).length ∧
      (L = 0 ↔ ∀ c ∈ stmt_slice text len loc, h.scanner_isspace c = true) ∧
      (loc < 0 → stmt_slice text len loc = text) ∧
      (0 ≤ loc → len ≤ 0 → stmt_slice text len loc = text.drop loc.toNat) ∧
      (0 ≤ loc → 0 < len →
        stmt_slice text len loc = (text.drop loc.toNat).take len.toNat) := by
  refine ⟨_, get_ql_for_utility_eq h text len loc hlen hspan, rfl, ?_, ?_, ?_, ?_⟩
  · rw [List.length_eq_zero]
    exact lexer_trim_eq_nil_iff _ _
  · intro hneg
    simp [stmt_slice, hneg]
  · intro hnn hl
    have : ¬ loc < 0 := by omega
    simp [stmt_slice, this, hl]
  · intro hnn hl
    have h1 : ¬ loc < 0 := by omega
    have h2 : ¬ len ≤ 0 := by omega
    simp [stmt_slice, h1, h2]

/-- Witness for C17: the second statement of `"BEGIN; COMMIT"`, whose slice
`" COMMIT"` trims to six bytes. -/
theorem get_ql_for_utility_length_witness :
    ∃ L : Nat,
      get_ql_for_utility (exampleHost true) (ascii "BEGIN; COMMIT") 0 6 = .ok (L : Int) ∧
      L = (lexer_trim (exampleHost true).scanner_isspace
        (stmt_slice (ascii "BEGIN; COMMIT") 0 6)).length ∧
      (L = 0 ↔ ∀ c ∈ stmt_slice (ascii "BEGIN; COMMIT") 0 6,
        (exampleHost true).scanner_isspace c = true) ∧
      ((6 : Int) < 0 → stmt_slice (ascii "BEGIN; COMMIT") 0 6 = ascii "BEGIN; COMMIT") ∧
      ((0 : Int) ≤ 6 → (0 : Int) ≤ 0 →
        stmt_slice (ascii "BEGIN; COMMIT") 0 6 = (ascii "BEGIN; COMMIT").drop (6 : Int).toNat) ∧
      ((0 : Int) ≤ 6 → (0 : Int) < 0 →
        stmt_slice (ascii "BEGIN; COMMIT") 0 6
          = ((ascii "BEGIN; COMMIT").drop (6 : Int).toNat).take (0 : Int).toNat) :=
  get_ql_for_utility_length (exampleHost true) (ascii "BEGIN; COMMIT") 0 6
    (by decide) (by decide)

/-! ## Registry indices -/

/-- C18. Registry indexing stays in bounds: when the process table has at most
`get_max_procs_count` slots and the calling process's slot lies inside the
table, the index `pg_get_queryid` reads (the one its result comes from) and
the index the two hooks write (the only entry they change) lie in
`[0, capacity)`, for every pid, statement and plan. -/
theorem registry_index_in_bounds (c : HostConfig) (b : Backend)
    (hcount : (b.ProcGlobal.allProcCount : Int) ≤ get_max_procs_count c)
    (hslot : ∀ i, b.MyProc = some i → i < b.ProcGlobal.allProcCount) :
    (∀ pid : Int,
      (pg_get_queryid b pid
        = match pg_get_queryid_index b pid with
          | some i => b.QueryIdArray i
          | none => 0) ∧
      ∀ i, pg_get_queryid_index b pid = some i →
        index_in_registry (get_max_procs_count c) i) ∧
    (∀ i, pgqi_write_index b = some i →
      index_in_registry (get_max_procs_count c) i ∧
      (∀ (h : Host) (queryDesc : QueryDesc) (eflags : Int),
        ∃ v, pgqi_ExecutorStart h b queryDesc eflags = setQueryId b i v) ∧
      (∀ (h : Host) (pstate : ParseState) (query : Query) (b1 : Backend),
        pgqi_post_parse_analyze h b pstate query = .ok b1 → ∃ v, b1 = setQueryId b i v)) ∧
    (pgqi_write_index b = none →
      (∀ (h : Host) (queryDesc : QueryDesc) (eflags : Int),
        pgqi_ExecutorStart h b queryDesc eflags = b) ∧
      (∀ (h : Host) (pstate : ParseState) (query : Query),
        pgqi_post_parse_analyze h b pstate query = .ok b)) := by
  refine ⟨?_, ?_, ?_⟩
  · intro pid
    refine ⟨pg_get_queryid_loop_eq_index b pid _ 0, ?_⟩
    intro i hi
    have hlt := (pg_get_queryid_loop_index_lt b pid _ 0 i hi).2
    unfold index_in_registry
    omega
  · intro i hi
    have hproc : b.MyProc = some i := hi
    have hlt := hslot i hproc
    refine ⟨?_, ?_, ?_⟩
    · unfold index_in_registry
      omega
    · intro h queryDesc eflags
      exact ⟨_, pgqi_ExecutorStart_eq h b queryDesc eflags i hproc⟩
    · intro h pstate query b1 hrun
      exact pgqi_post_parse_analyze_shape h b pstate query i b1 hproc hrun
  · intro hnone
    have hproc : b.MyProc = none := hnone
    exact ⟨fun h queryDesc eflags => pgqi_ExecutorStart_unregistered h b queryDesc eflags hproc,
      fun h pstate query => pgqi_post_parse_analyze_unregistered h b pstate query hproc⟩

/-- Witness for C18: a table of two slots, a capacity of three, the process in
slot 1, a lookup of pid 7. -/
theorem registry_index_in_bounds_witness :
    pg_get_queryid_index (exampleBackend (some 1) [0, 7] [5, 6] true) 7 = some 1 ∧
    index_in_registry (get_max_procs_count ⟨2, 1, 0⟩) 1 :=
  ⟨rfl, ((registry_index_in_bounds ⟨2, 1, 0⟩ (exampleBackend (some 1) [0, 7] [5, 6] true)
    (by decide) (by intro i hi; cases hi; decide)).1 7).2 1 rfl⟩

end PgGetQueryid
